import Mathlib

/-!
# clientServer: the chat server of `src/server.c`

A shallow embedding of the request handlers of `server.c` together with the
parts of the C library they are written against (`fscanf`/`sscanf`, `fgets`,
`getline`, `fprintf` of `%d` and `%s`, `fopen`, `send`).

* Files are lists of characters.  A per-user directory holds the two files
  `contact_list.txt` and `messages.txt`; opening for reading needs the file,
  opening for writing or appending needs the directory.
* Every call of `send` is recorded, in order, together with its descriptor.
* A run that reads a variable no conversion has assigned, writes outside a
  buffer or array, or passes a null string to `%s` ends in
  `Fault.undefinedBehaviour`; a loop that repeats without changing its state
  ends in `Fault.diverges`.
* `int` values are integers; the counters of the handlers never come near the
  range of `int` on the files considered here.
-/

namespace ClientServer

/-! ## Constants of `server.c` -/

/-- `#define MAX_USERS 10`. -/
def MAX_USERS : Int := 10

/-- `#define REGISTRATION_BUFFER_SIZE 16`. -/
def REGISTRATION_BUFFER_SIZE : Nat := 16

/-! ## Outcome of a run -/

/-- The two ways a handler can fail to return. -/
inductive Fault where
  | undefinedBehaviour
  | diverges
  deriving DecidableEq, Repr

/-! ## Formatted output: `%d`, `%02d` -/

/-- The character of a decimal digit. -/
def digitChar (d : Nat) : Char := Char.ofNat (d + 48)

/-- Decimal digits of `n` pushed in front of `acc`, most significant first. -/
def printNatAux : Nat → Nat → List Char → List Char
  | 0, _, acc => acc
  | fuel + 1, n, acc =>
    if n < 10 then digitChar n :: acc
    else printNatAux fuel (n / 10) (digitChar (n % 10) :: acc)

/-- The text `%d` (or `%u`) prints for a natural number. -/
def printNat (n : Nat) : List Char := printNatAux (n + 1) n []

/-- The text `%d` prints for an `int`. -/
def printInt : Int → List Char
  | Int.ofNat n => printNat n
  | Int.negSucc n => '-' :: printNat (n + 1)

/-- The text `%02d` prints: padded with one zero when shorter than two. -/
def printInt02 (i : Int) : List Char :=
  if (printInt i).length < 2 then '0' :: printInt i else printInt i

/-! ## Formatted input: `fscanf` / `sscanf` -/

/-- The characters for which `isspace` holds in the C locale. -/
def isspace (c : Char) : Bool :=
  c == ' ' || c == '\t' || c == '\n' || c == '\x0b' || c == '\x0c' || c == '\r'

/-- The directives used by the format strings of `server.c`. -/
inductive Directive where
  /-- White space in the format: skips any amount of input white space. -/
  | space
  /-- An ordinary character, which must come next in the input. -/
  | char (c : Char)
  /-- The conversion `%d`. -/
  | int
  /-- The conversion `%[^c]`. -/
  | notChar (stop : Char)
  /-- The conversion `%*[^c]`, which assigns nothing. -/
  | skipNotChar (stop : Char)
  deriving DecidableEq, Repr

/-- A value stored through one of the pointer arguments. -/
inductive Value where
  | int (n : Int)
  | str (s : List Char)
  deriving DecidableEq, Repr

/-- What a call of `fscanf`/`sscanf` leaves behind: the return value (`none`
is `EOF`), the values assigned in order, and the unread input. -/
structure Scan where
  ret : Option Nat
  vals : List Value
  rest : List Char
  deriving DecidableEq, Repr

/-- Reads decimal digits, accumulating their value. -/
def scanDigits : List Char → Nat → Nat × List Char
  | [], acc => (acc, [])
  | c :: cs, acc =>
    if c.isDigit then scanDigits cs (10 * acc + (c.toNat - 48)) else (acc, c :: cs)

/-- Result of a single conversion. -/
inductive Conv (α : Type) where
  /-- The input ended before any character of the item. -/
  | inputFailure
  /-- The input does not match; `rest` is what stays unread. -/
  | matchFailure (rest : List Char)
  | ok (v : α) (rest : List Char)
  deriving DecidableEq, Repr

/-- The conversion `%d`: skips white space, takes an optional sign and at least
one digit.  A lone sign is consumed and is a matching failure. -/
def scanInt (inp : List Char) : Conv Int :=
  match inp.dropWhile isspace with
  | [] => Conv.inputFailure
  | c :: cs =>
    if c = '-' ∨ c = '+' then
      match cs with
      | [] => Conv.matchFailure []
      | d :: ds =>
        if d.isDigit then
          let r := scanDigits (d :: ds) 0
          Conv.ok (if c = '-' then - (r.1 : Int) else (r.1 : Int)) r.2
        else Conv.matchFailure (d :: ds)
    else if c.isDigit then
      let r := scanDigits (c :: cs) 0
      Conv.ok (r.1 : Int) r.2
    else Conv.matchFailure (c :: cs)

/-- The conversion `%[^stop]`: the longest non-empty run of characters other
than `stop`; no white space is skipped. -/
def scanNotChar (stop : Char) (inp : List Char) : Conv (List Char) :=
  match inp with
  | [] => Conv.inputFailure
  | c :: cs =>
    if c = stop then Conv.matchFailure (c :: cs)
    else Conv.ok ((c :: cs).takeWhile (fun x => x != stop)) ((c :: cs).dropWhile (fun x => x != stop))

/-- Return of a call that hits the end of the input: `EOF` when nothing has
been assigned yet, the number of assignments otherwise. -/
def Scan.inputFailure (vals : List Value) : Scan :=
  ⟨if vals.isEmpty then none else some vals.length, vals, []⟩

/-- Runs the directives of a format over the input. -/
def scanf : List Directive → List Char → List Value → Scan
  | [], inp, vals => ⟨some vals.length, vals, inp⟩
  | Directive.space :: ds, inp, vals => scanf ds (inp.dropWhile isspace) vals
  | Directive.char c :: ds, inp, vals =>
    match inp with
    | [] => Scan.inputFailure vals
    | x :: xs => if x = c then scanf ds xs vals else ⟨some vals.length, vals, x :: xs⟩
  | Directive.int :: ds, inp, vals =>
    match scanInt inp with
    | Conv.inputFailure => Scan.inputFailure vals
    | Conv.matchFailure rest => ⟨some vals.length, vals, rest⟩
    | Conv.ok n rest => scanf ds rest (vals ++ [Value.int n])
  | Directive.notChar stop :: ds, inp, vals =>
    match scanNotChar stop inp with
    | Conv.inputFailure => Scan.inputFailure vals
    | Conv.matchFailure rest => ⟨some vals.length, vals, rest⟩
    | Conv.ok s rest => scanf ds rest (vals ++ [Value.str s])
  | Directive.skipNotChar stop :: ds, inp, vals =>
    match scanNotChar stop inp with
    | Conv.inputFailure => Scan.inputFailure vals
    | Conv.matchFailure rest => ⟨some vals.length, vals, rest⟩
    | Conv.ok _ rest => scanf ds rest vals

/-- The call `fgets(line, size, file)`: at most `size - 1` characters, stopping
after a newline; `none` at the end of the file. -/
def fgetsAux : Nat → List Char → List Char × List Char
  | 0, inp => ([], inp)
  | _ + 1, [] => ([], [])
  | k + 1, c :: cs =>
    if c = '\n' then ([c], cs)
    else ((c :: (fgetsAux k cs).1), (fgetsAux k cs).2)

/-- The call `fgets(line, size, file)`; `none` is the null return. -/
def fgets (size : Nat) (inp : List Char) : Option (List Char × List Char) :=
  match inp with
  | [] => none
  | c :: cs => some (fgetsAux (size - 1) (c :: cs))

/-! ## Data of `server.c` -/

/-- The `User` struct as received in the body of a request: an id and four
strings, each held in an array of `REGISTRATION_BUFFER_SIZE` bytes. -/
structure User where
  userId : Int
  username : List Char
  phoneNumber : List Char
  name : List Char
  surname : List Char
  deriving DecidableEq, Repr

/-- An element of the local array `users` of `sendContactList`: a member is
`none` as long as no conversion has written it. -/
structure UserSlot where
  userId : Option Int
  username : Option (List Char)
  phoneNumber : Option (List Char)
  name : Option (List Char)
  surname : Option (List Char)
  deriving DecidableEq, Repr

/-- The `body` of a record the server sends. -/
inductive Body where
  /-- The array was never written. -/
  | unset
  /-- Written by `strcpy`, `strncpy` or `sprintf`. -/
  | text (s : List Char)
  /-- Written by `memcpy` from a `User`. -/
  | user (u : UserSlot)
  deriving DecidableEq, Repr

/-- The `Message` struct as the server sends it; `toId` and `fromId` are the
members `to` and `from`, `none` when the server never wrote them. -/
structure Message where
  type : Int
  body : Body
  toId : Option Int
  fromId : Option Int
  deriving DecidableEq, Repr

/-- The `Message` struct as `recv` fills it.  `body` is the member read as a
string, `user` the same bytes read as a `User` (the `memcpy` of `handleClient`,
type 5); the two views are not related here. -/
structure Received where
  type : Int
  body : List Char
  user : User
  toId : Int
  fromId : Int
  deriving DecidableEq, Repr

/-- The `struct tm` members `processMessage` prints. -/
structure Tm where
  tm_year : Int
  tm_mon : Int
  tm_mday : Int
  tm_hour : Int
  tm_min : Int
  tm_sec : Int
  deriving DecidableEq, Repr

/-- The directory `TerChatApp/users/<id>/`; a file is `none` when absent. -/
structure UserDir where
  contact_list : Option (List Char)
  messages : Option (List Char)
  deriving DecidableEq, Repr

/-- State the handlers share. -/
structure World where
  /-- The array `sockets` of `main`, passed to the threads as `clients`; only
  indices below `MAX_USERS` exist. -/
  clients : Nat → Int
  /-- The descriptors on which `send` succeeds. -/
  live : Int → Bool
  /-- The file `TerChatApp/users/user_list.txt`. -/
  user_list : Option (List Char)
  /-- The directories `TerChatApp/users/<id>/`. -/
  dirs : Int → Option UserDir
  /-- Every call of `send`, in order. -/
  sent : List (Int × Message)

/-- The state `main` starts the threads with: `int sockets[MAX_USERS] = {0}`. -/
def World.init (live : Int → Bool) : World :=
  ⟨fun _ => 0, live, none, fun _ => none, []⟩

/-- Replaces the directory of one user. -/
def World.setDir (w : World) (userId : Int) (d : UserDir) : World :=
  { w with dirs := fun j => if j = userId then some d else w.dirs j }

/-- The call `send(sock, &msg, sizeof(msg), 0)` and whether it succeeded. -/
def send (w : World) (sock : Int) (msg : Message) : World × Bool :=
  ({ w with sent := w.sent ++ [(sock, msg)] }, w.live sock)

/-- The line `"%s, %d, %s, %d\n"` of `messages.txt`. -/
def fmtRow (date : List Char) (peer : Int) (text : List Char) (readStatus : Int) : List Char :=
  date ++ [',', ' '] ++ printInt peer ++ [',', ' '] ++ text ++ [',', ' '] ++ printInt readStatus ++ ['\n']

/-- The line `"%d,%s,%s,%s\n"` of `contact_list.txt`. -/
def fmtContact (userId : Int) (name surname phoneNumber : List Char) : List Char :=
  printInt userId ++ [','] ++ name ++ [','] ++ surname ++ [','] ++ phoneNumber ++ ['\n']

/-- The line `"%d,%s,%s,%s,%s\n"` of `user_list.txt`. -/
def fmtUser (userId : Int) (username phoneNumber name surname : List Char) : List Char :=
  printInt userId ++ [','] ++ username ++ [','] ++ phoneNumber ++ [','] ++ name ++ [','] ++ surname ++ ['\n']

/-- The text `"%d-%02d-%02d %02d:%02d:%02d"` of `processMessage`. -/
def fmtDate (tm : Tm) : List Char :=
  printInt (tm.tm_year + 1900) ++ ['-'] ++ printInt02 (tm.tm_mon + 1) ++ ['-'] ++ printInt02 tm.tm_mday
    ++ [' '] ++ printInt02 tm.tm_hour ++ [':'] ++ printInt02 tm.tm_min ++ [':'] ++ printInt02 tm.tm_sec

/-- The format `"%d,%[^,],%[^,],%[^,],%[^\n]\n"` of `isUserRegistered`. -/
def userListFormat : List Directive :=
  [Directive.int, Directive.char ',', Directive.notChar ',', Directive.char ',', Directive.notChar ',',
   Directive.char ',', Directive.notChar ',', Directive.char ',', Directive.notChar '\n', Directive.space]

/-- The format `"%d,%[^,],%[^,],%[^\n]\n"` of `sendContactList`. -/
def contactFormat : List Directive :=
  [Directive.int, Directive.char ',', Directive.notChar ',', Directive.char ',', Directive.notChar ',',
   Directive.char ',', Directive.notChar '\n', Directive.space]

/-- The format `"%d,%*[^\n]\n"` of `addUserToContactList`. -/
def contactIdFormat : List Directive :=
  [Directive.int, Directive.char ',', Directive.skipNotChar '\n', Directive.space]

/-- The format `"%[^,], %d, %[^,], %d\n"` of the two readers of `messages.txt`. -/
def rowFormat : List Directive :=
  [Directive.notChar ',', Directive.char ',', Directive.space, Directive.int, Directive.char ',',
   Directive.space, Directive.notChar ',', Directive.char ',', Directive.space, Directive.int,
   Directive.space]

/-- Whether every string assigned by a call fits an array of `size` bytes. -/
def fitsBuffers (size : Nat) (vals : List Value) : Bool :=
  vals.all (fun v => match v with
    | Value.int _ => true
    | Value.str s => s.length < size)

/-! ## The handlers -/

/-- `sendConfirmationMessage`: a record of type 3 whose `to` and `from` are
never written. -/
def sendConfirmationMessage (w : World) (newSocket : Int) (message : List Char) : World :=
  (send w newSocket ⟨3, Body.text message, none, none⟩).1

/-- `findSocketByUserId`. -/
def findSocketByUserId (userId : Int) (clients : Nat → Int) : Int :=
  if userId < 0 ∨ userId ≥ MAX_USERS then -1 else clients userId.toNat

/-- `disconnectClient`: closes the descriptor; the thread then exits. -/
def disconnectClient (w : World) (newSocket : Int) (_userId : Int) : World :=
  { w with live := fun fd => if fd = newSocket then false else w.live fd }

/-- The loop `while (fscanf(file, fmt, &id, ...) != EOF) if (id == userId) return 1;`
shared by `isUserRegistered` and `addUserToContactList`.  `id` is the variable
the first conversion writes, `none` before any assignment; `size` is the size
of the string buffers.  An iteration that consumes nothing leaves the state as
it was, so the loop never ends. -/
def scanForId (fmt : List Directive) (size : Nat) (userId : Int) :
    Nat → List Char → Option Int → Except Fault Bool
  | 0, _, _ => Except.error Fault.diverges
  | fuel + 1, inp, id =>
    let r := scanf fmt inp []
    match r.ret with
    | none => Except.ok false
    | some _ =>
      if fitsBuffers size r.vals then
        match (match r.vals.head? with | some (Value.int n) => some n | _ => id) with
        | none => Except.error Fault.undefinedBehaviour
        | some n =>
          if n = userId then Except.ok true
          else if r.rest.length < inp.length then scanForId fmt size userId fuel r.rest (some n)
          else Except.error Fault.diverges
      else Except.error Fault.undefinedBehaviour

/-- `isUserRegistered`. -/
def isUserRegistered (w : World) (userId : Int) : Except Fault Bool :=
  match w.user_list with
  | none => Except.ok false
  | some file => scanForId userListFormat 1024 userId (file.length + 1) file none

/-- `handleLoginRequest`. -/
def handleLoginRequest (w : World) (newSocket : Int) (receivedMessage : Received) :
    Except Fault World :=
  if 0 ≤ receivedMessage.fromId ∧ receivedMessage.fromId < MAX_USERS then
    let w1 : World :=
      { w with clients := fun i => if i = receivedMessage.fromId.toNat then newSocket else w.clients i }
    match isUserRegistered w1 receivedMessage.fromId with
    | Except.error e => Except.error e
    | Except.ok true => Except.ok (sendConfirmationMessage w1 newSocket "logged in".toList)
    | Except.ok false => Except.ok (send w1 newSocket ⟨2, Body.unset, none, none⟩).1
  else Except.error Fault.undefinedBehaviour

/-- The call `strtok(s, ",")` and what it leaves for the next call: `none` is
the null return. -/
def strtok (delim : Char) (s : List Char) : Option (List Char × List Char) :=
  match s.dropWhile (fun x => x == delim) with
  | [] => none
  | c :: cs =>
    some ((c :: cs).takeWhile (fun x => x != delim), ((c :: cs).dropWhile (fun x => x != delim)).drop 1)

/-- `handleRegistrationRequest`.  A null token reaches `%s`, and a directory
name longer than the 22 bytes `malloc` gave overflows them. -/
def handleRegistrationRequest (w : World) (newSocket : Int) (receivedMessage : Received) :
    Except Fault World :=
  match strtok ',' receivedMessage.body with
  | none => Except.error Fault.undefinedBehaviour
  | some (username, s1) =>
    match strtok ',' s1 with
    | none => Except.error Fault.undefinedBehaviour
    | some (phoneNumber, s2) =>
      match strtok ',' s2 with
      | none => Except.error Fault.undefinedBehaviour
      | some (name, s3) =>
        match strtok ',' s3 with
        | none => Except.error Fault.undefinedBehaviour
        | some (surname, _) =>
          let w1 : World :=
            { w with user_list := some (w.user_list.getD [] ++
                fmtUser receivedMessage.fromId username phoneNumber name surname) }
          if "TerChatApp/users/".length + (printInt receivedMessage.fromId).length + 1
              ≤ "TerChatApp/users/".length + 4 + 1 then
            match w1.dirs receivedMessage.fromId with
            | some _ => Except.ok w1
            | none =>
              Except.ok (sendConfirmationMessage
                (w1.setDir receivedMessage.fromId ⟨some [], some []⟩) newSocket "registered".toList)
          else Except.error Fault.undefinedBehaviour

/-- `fopen(".../<id>/contact_list.txt", "r")` and the content read: `none` is
the null return. -/
def World.readContactList (w : World) (userId : Int) : Option (List Char) :=
  match w.dirs userId with
  | none => none
  | some d => d.contact_list

/-- `fopen(".../<id>/contact_list.txt", "w")`, or `"a"` with `content` the old
content extended, up to `fclose`: `none` is the null return. -/
def World.writeContactList (w : World) (userId : Int) (content : List Char) : Option World :=
  match w.dirs userId with
  | none => none
  | some d => some (w.setDir userId { d with contact_list := some content })

/-- `fopen(".../<id>/messages.txt", "r")` and the content read. -/
def World.readMessages (w : World) (userId : Int) : Option (List Char) :=
  match w.dirs userId with
  | none => none
  | some d => d.messages

/-- `fopen(".../<id>/messages.txt", "w")` up to `fclose`. -/
def World.writeMessages (w : World) (userId : Int) (content : List Char) : Option World :=
  match w.dirs userId with
  | none => none
  | some d => some (w.setDir userId { d with messages := some content })

/-- `fopen(".../<id>/messages.txt", "a")`, one `fprintf` and `fclose`. -/
def World.appendMessages (w : World) (userId : Int) (line : List Char) : Option World :=
  match w.dirs userId with
  | none => none
  | some d => some (w.setDir userId { d with messages := some (d.messages.getD [] ++ line) })

/-- The members of `users[userCount]` a call of `fscanf` with `contactFormat`
has written: `userId`, `name`, `surname`, `phoneNumber`, in this order. -/
def slotOf (vals : List Value) : UserSlot :=
  { userId := match vals.get? 0 with | some (Value.int n) => some n | _ => none
    username := none
    name := match vals.get? 1 with | some (Value.str s) => some s | _ => none
    surname := match vals.get? 2 with | some (Value.str s) => some s | _ => none
    phoneNumber := match vals.get? 3 with | some (Value.str s) => some s | _ => none }

/-- The reading loop of `sendContactList`; the first argument is the number of
free elements of `users`, and the loop breaks when none is left. -/
def readContacts : Nat → List Char → List UserSlot → Except Fault (List UserSlot)
  | 0, _, users => Except.ok users
  | room + 1, inp, users =>
    let r := scanf contactFormat inp []
    match r.ret with
    | none => Except.ok users
    | some _ =>
      if fitsBuffers REGISTRATION_BUFFER_SIZE r.vals then
        readContacts room r.rest (users ++ [slotOf r.vals])
      else Except.error Fault.undefinedBehaviour

/-- The sending loop of `sendContactList`; it returns at the first failed `send`. -/
def sendUsers (sock : Int) (userCount : Int) : World → List UserSlot → World
  | w, [] => w
  | w, u :: us =>
    if (send w sock ⟨4, Body.user u, some userCount, some (-1)⟩).2 then
      sendUsers sock userCount (send w sock ⟨4, Body.user u, some userCount, some (-1)⟩).1 us
    else (send w sock ⟨4, Body.user u, some userCount, some (-1)⟩).1

/-- `sendContactList`. -/
def sendContactList (w : World) (sock : Int) (userId : Int) : Except Fault World :=
  match w.readContactList userId with
  | none => Except.ok (sendConfirmationMessage w sock "Error occured in server".toList)
  | some file =>
    match readContacts MAX_USERS.toNat file [] with
    | Except.error e => Except.error e
    | Except.ok users =>
      if users.length = 0 then
        Except.ok (sendConfirmationMessage w sock "Contact list is empty".toList)
      else Except.ok (sendUsers sock users.length w users)

/-- `addUserToContactList`. -/
def addUserToContactList (w : World) (sock : Int) (userId : Int) (user : User) :
    Except Fault World :=
  match w.readContactList userId with
  | none => Except.ok (sendConfirmationMessage w sock "Error occured in server".toList)
  | some file =>
    match scanForId contactIdFormat 0 user.userId (file.length + 1) file none with
    | Except.error e => Except.error e
    | Except.ok true =>
      Except.ok (sendConfirmationMessage w sock "User already exists in contact list".toList)
    | Except.ok false =>
      match w.writeContactList userId
          (file ++ fmtContact user.userId user.name user.surname user.phoneNumber) with
      | none => Except.ok w
      | some w1 => Except.ok (sendConfirmationMessage w1 sock "User added to contact list".toList)

/-- The call `getline(lineptr, &len, file)`: `none` is the return `-1`, given
with `EINVAL` when `lineptr` is null and at the end of the file; otherwise the
line through its newline. -/
def getline (lineptrIsNull : Bool) (inp : List Char) : Option (List Char × List Char) :=
  if lineptrIsNull then none
  else
    match inp with
    | [] => none
    | c :: cs => some (fgetsAux (c :: cs).length (c :: cs))

/-- The reading loop of `deleteUserFromFile`.  `lines` is the pointer of the
same name, `none` while it is null; `&lines[lineCount]` is null exactly then.
The body stores the line and lets `realloc` make `lines` non-null. -/
def readLines : Nat → Option (List (List Char)) → List Char → List (List Char)
  | 0, lines, _ => lines.getD []
  | fuel + 1, lines, inp =>
    match getline lines.isNone inp with
    | none => lines.getD []
    | some (line, rest) => readLines fuel (some (lines.getD [] ++ [line])) rest

/-- The writing loop of `deleteUserFromFile`: what it prints to the file. -/
def keptLines (userIdToDelete : Int) : List (List Char) → Except Fault (List Char)
  | [] => Except.ok []
  | line :: lines =>
    match (scanf [Directive.int] line []).vals with
    | [Value.int userId] =>
      match keptLines userIdToDelete lines with
      | Except.error e => Except.error e
      | Except.ok out => Except.ok (if userId ≠ userIdToDelete then line ++ out else out)
    | _ => Except.error Fault.undefinedBehaviour

/-- `deleteUserFromFile`: `char **lines = NULL;` and the first call is
`getline(&lines[0], &len, file)`. -/
def deleteUserFromFile (w : World) (sock : Int) (userId : Int) (userIdToDelete : Int) :
    Except Fault World :=
  match w.readContactList userId with
  | none => Except.ok w
  | some file =>
    match w.writeContactList userId [] with
    | none => Except.ok w
    | some _ =>
      match keptLines userIdToDelete (readLines (file.length + 1) none file) with
      | Except.error e => Except.error e
      | Except.ok out =>
        match w.writeContactList userId out with
        | none => Except.ok w
        | some w1 =>
          Except.ok (sendConfirmationMessage w1 sock "User deleted from contact list".toList)

/-- `processMessage`; `tm` is what `localtime(time(NULL))` gives. -/
def processMessage (w : World) (tm : Tm) (sock : Int) (fromUserId toUserId : Int)
    (recipientSocket : Int) (messageText : List Char) : Except Fault World :=
  if recipientSocket = -1 then Except.ok w
  else
    let s := send w recipientSocket ⟨7, Body.text (messageText.take 1023), some toUserId, some fromUserId⟩
    if s.2 then
      if (fmtDate tm).length < 50 then
        let w1 := (s.1.appendMessages fromUserId (fmtRow (fmtDate tm) toUserId messageText 0)).getD s.1
        let w2 := (w1.appendMessages toUserId (fmtRow (fmtDate tm) fromUserId messageText 0)).getD w1
        Except.ok (sendConfirmationMessage w2 sock "Message sent".toList)
      else Except.error Fault.undefinedBehaviour
    else Except.ok s.1

/-- The four locals `date`, `fromUserId`, `messageText`, `readStatus` after
`sscanf(line, "%[^,], %d, %[^,], %d\n", ...)`; `none` when not assigned. -/
structure RowVars where
  date : Option (List Char)
  fromUserId : Option Int
  messageText : Option (List Char)
  readStatus : Option Int
  deriving DecidableEq, Repr

/-- The `sscanf` call of the two readers of `messages.txt`, with `date[50]`
and `messageText[1024]`. -/
def sscanfRow (line : List Char) : Except Fault RowVars :=
  let vals := (scanf rowFormat line []).vals
  let vars : RowVars :=
    { date := match vals.get? 0 with | some (Value.str s) => some s | _ => none
      fromUserId := match vals.get? 1 with | some (Value.int n) => some n | _ => none
      messageText := match vals.get? 2 with | some (Value.str s) => some s | _ => none
      readStatus := match vals.get? 3 with | some (Value.int n) => some n | _ => none }
  if (vars.date.getD []).length < 50 ∧ (vars.messageText.getD []).length < 1024 then Except.ok vars
  else Except.error Fault.undefinedBehaviour

/-- The reading loop of `countUnreadMessagesAndSend` over `unreadCounts`. -/
def countUnread : Nat → List Char → (Nat → Nat) → Except Fault (Nat → Nat)
  | 0, _, _ => Except.error Fault.diverges
  | fuel + 1, inp, unreadCounts =>
    match fgets 256 inp with
    | none => Except.ok unreadCounts
    | some (line, rest) =>
      match sscanfRow line with
      | Except.error e => Except.error e
      | Except.ok vars =>
        match vars.readStatus with
        | none => Except.error Fault.undefinedBehaviour
        | some readStatus =>
          if readStatus = 0 then
            match vars.fromUserId with
            | none => Except.error Fault.undefinedBehaviour
            | some fromUserId =>
              if 0 ≤ fromUserId ∧ fromUserId < MAX_USERS then
                countUnread fuel rest
                  (fun i => if i = fromUserId.toNat then unreadCounts i + 1 else unreadCounts i)
              else Except.error Fault.undefinedBehaviour
          else countUnread fuel rest unreadCounts

/-- The text `"%d Unread message from user %d\n"`. -/
def fmtUnread (count : Nat) (i : Nat) : List Char :=
  printNat count ++ " Unread message from user ".toList ++ printNat i ++ ['\n']

/-- The loop of `countUnreadMessagesAndSend` that fills `msgBody`. -/
def unreadBody (unreadCounts : Nat → Nat) : List Char :=
  ((List.range MAX_USERS.toNat).filter (fun i => 0 < unreadCounts i)).flatMap
    (fun i => fmtUnread (unreadCounts i) i)

/-- `countUnreadMessagesAndSend`. -/
def countUnreadMessagesAndSend (w : World) (sock : Int) (userId : Int) : Except Fault World :=
  match w.readMessages userId with
  | none => Except.ok w
  | some file =>
    match countUnread (file.length + 1) file (fun _ => 0) with
    | Except.error e => Except.error e
    | Except.ok unreadCounts =>
      if (List.range MAX_USERS.toNat).all (fun i => unreadCounts i = 0) then
        Except.ok (sendConfirmationMessage w sock "No unread message".toList)
      else
        Except.ok (send w sock ⟨8, Body.text (unreadBody unreadCounts), some userId, some (-1)⟩).1

/-- The local struct `MessageData` of `readUserMessagesAndSetReadStatus`. -/
structure MessageData where
  date : List Char
  fromUserId : Int
  messageText : List Char
  readStatus : Int
  deriving DecidableEq, Repr

/-- The reading loop of `readUserMessagesAndSetReadStatus`. -/
def readMessageData (targetUserId : Int) :
    Nat → List Char → List MessageData → Except Fault (List MessageData)
  | 0, _, _ => Except.error Fault.diverges
  | fuel + 1, inp, messages =>
    match fgets 256 inp with
    | none => Except.ok messages
    | some (line, rest) =>
      match sscanfRow line with
      | Except.error e => Except.error e
      | Except.ok vars =>
        match vars.date, vars.fromUserId, vars.messageText with
        | some date, some fromUserId, some messageText =>
          readMessageData targetUserId fuel rest
            (messages ++ [⟨date, fromUserId, messageText, if fromUserId = targetUserId then 1 else 0⟩])
        | _, _, _ => Except.error Fault.undefinedBehaviour

/-- The loop of `readUserMessagesAndSetReadStatus` that sends the rows of the
target and prints every row: the state after the sends. -/
def resendMessages (sock userId targetUserId : Int) : World → List MessageData → World
  | w, [] => w
  | w, m :: ms =>
    if m.fromUserId = targetUserId then
      resendMessages sock userId targetUserId
        (send w sock ⟨9, Body.text (fmtRow m.date m.fromUserId m.messageText m.readStatus),
          some userId, some m.fromUserId⟩).1 ms
    else resendMessages sock userId targetUserId w ms

/-- What the same loop prints to the file. -/
def rewrittenMessages (messages : List MessageData) : List Char :=
  messages.flatMap (fun m => fmtRow m.date m.fromUserId m.messageText m.readStatus)

/-- `readUserMessagesAndSetReadStatus`. -/
def readUserMessagesAndSetReadStatus (w : World) (sock : Int) (userId targetUserId : Int) :
    Except Fault World :=
  match w.readMessages userId with
  | none => Except.ok (sendConfirmationMessage w sock "Messages read".toList)
  | some file =>
    match readMessageData targetUserId (file.length + 1) file [] with
    | Except.error e => Except.error e
    | Except.ok messages =>
      match w.writeMessages userId (rewrittenMessages messages) with
      | none => Except.ok (sendConfirmationMessage w sock "Messages read".toList)
      | some w1 =>
        Except.ok (sendConfirmationMessage (resendMessages sock userId targetUserId w1 messages)
          sock "Messages read".toList)

/-- One turn of the loop of `handleClient`: `received` is `none` when `recv`
returns a value `<= 0`.  The result says whether the thread goes on. -/
def handleClient (w : World) (tm : Tm) (newSocket : Int) (received : Option Received) :
    Except Fault (World × Bool) :=
  match received with
  | none => Except.ok (disconnectClient w newSocket 0, false)
  | some receivedMessage =>
    if receivedMessage.type = -1 then
      Except.ok (disconnectClient w newSocket receivedMessage.fromId, false)
    else if receivedMessage.type = 0 then
      (handleLoginRequest w newSocket receivedMessage).map (fun w1 => (w1, true))
    else if receivedMessage.type = 1 then Except.ok (w, true)
    else if receivedMessage.type = 2 then
      (handleRegistrationRequest w newSocket receivedMessage).map (fun w1 => (w1, true))
    else if receivedMessage.type = 4 then
      (sendContactList w newSocket receivedMessage.fromId).map (fun w1 => (w1, true))
    else if receivedMessage.type = 5 then
      (addUserToContactList w newSocket receivedMessage.fromId receivedMessage.user).map
        (fun w1 => (w1, true))
    else if receivedMessage.type = 6 then
      (deleteUserFromFile w newSocket receivedMessage.fromId receivedMessage.toId).map
        (fun w1 => (w1, true))
    else if receivedMessage.type = 7 then
      (processMessage w tm newSocket receivedMessage.fromId receivedMessage.toId
        (findSocketByUserId receivedMessage.toId w.clients) receivedMessage.body).map
        (fun w1 => (w1, true))
    else if receivedMessage.type = 8 then
      (countUnreadMessagesAndSend w newSocket receivedMessage.fromId).map (fun w1 => (w1, true))
    else if receivedMessage.type = 9 then
      (readUserMessagesAndSetReadStatus w newSocket receivedMessage.fromId receivedMessage.toId).map
        (fun w1 => (w1, true))
    else Except.ok (w, true)

/-! ## Files, rows and records of the statements -/

/-- The content of `messages.txt` holding the given rows. -/
def messagesFile (rows : List MessageData) : List Char :=
  rows.flatMap (fun m => fmtRow m.date m.fromUserId m.messageText m.readStatus)

/-- The content of `contact_list.txt` holding the given contacts. -/
def contactsFile (cs : List User) : List Char :=
  cs.flatMap (fun u => fmtContact u.userId u.name u.surname u.phoneNumber)

/-- The content of `user_list.txt` holding the given profiles. -/
def usersFile (ps : List User) : List Char :=
  ps.flatMap (fun p => fmtUser p.userId p.username p.phoneNumber p.name p.surname)

/-- The body of a registration request: the four fields joined by commas. -/
def registrationBody (username phoneNumber name surname : List Char) : List Char :=
  username ++ [','] ++ phoneNumber ++ [','] ++ name ++ [','] ++ surname

/-- The row `processMessage` prints for a message read at clock `p.1` with
text `p.2`, in the file of the user whose peer is `peer`. -/
def sentRow (peer : Int) (p : Tm × List Char) : MessageData :=
  ⟨fmtDate p.1, peer, p.2, 0⟩

/-- The row `readUserMessagesAndSetReadStatus` stores and prints back for a
row it read: the date and the peer as they were, the text from its first
character that is not white space, and `setRead` as the read status. -/
def markedRow (targetUserId : Int) (m : MessageData) : MessageData :=
  ⟨m.date, m.fromUserId, m.messageText.dropWhile isspace,
    if m.fromUserId = targetUserId then 1 else 0⟩

/-- The type-9 record sent for a stored row. -/
def readRecord (userId : Int) (m : MessageData) : Message :=
  ⟨9, Body.text (fmtRow m.date m.fromUserId m.messageText m.readStatus), some userId,
    some m.fromUserId⟩

/-- The type-4 record `sendContactList` sends for a contact it has read in
full; `username` is never written. -/
def contactRecord (userCount : Nat) (u : User) : Message :=
  ⟨4, Body.user ⟨some u.userId, none, some u.phoneNumber, some u.name, some u.surname⟩,
    some userCount, some (-1)⟩

/-- Number of rows with `readStatus` 0 whose peer is the user of index `i`. -/
def unreadFrom (rows : List MessageData) (i : Nat) : Nat :=
  (rows.filter (fun m => m.readStatus = 0 ∧ m.fromUserId.toNat = i)).length

/-! ## Predicates of the statements -/

/-- The input does not go on with a digit. -/
def noDigitHead (rest : List Char) : Bool :=
  match rest with
  | [] => true
  | c :: _ => !c.isDigit

/-- The string does not begin with white space. -/
def noSpaceHead (s : List Char) : Bool :=
  match s with
  | [] => true
  | c :: _ => !isspace c

/-- A row of `messages.txt` that the readers take in as one line and convert
in full: the date is non-empty, has no comma or newline and fits `date[50]`;
the text has no comma or newline and holds a character that is not white
space; the line fits `line[256]`. -/
def MessageData.readable (m : MessageData) : Prop :=
  m.date ≠ [] ∧ ',' ∉ m.date ∧ '\n' ∉ m.date ∧ m.date.length < 50 ∧
  m.messageText.dropWhile isspace ≠ [] ∧ ',' ∉ m.messageText ∧ '\n' ∉ m.messageText ∧
  (fmtRow m.date m.fromUserId m.messageText m.readStatus).length ≤ 255

instance (m : MessageData) : Decidable m.readable := by
  unfold MessageData.readable; infer_instance

/-- A well-formed row: a readable one whose text does not begin with white
space, so that the readers get back the four members it was printed from. -/
def MessageData.wf (m : MessageData) : Prop :=
  m.readable ∧ noSpaceHead m.messageText = true

instance (m : MessageData) : Decidable m.wf := by
  unfold MessageData.wf; infer_instance

/-- What `localtime` returns: the members in their calendar ranges, and
`tm_year + 1900` an `int`. -/
def Tm.valid (tm : Tm) : Prop :=
  -2147483648 ≤ tm.tm_year + 1900 ∧ tm.tm_year + 1900 ≤ 2147483647 ∧
  0 ≤ tm.tm_mon ∧ tm.tm_mon ≤ 11 ∧ 1 ≤ tm.tm_mday ∧ tm.tm_mday ≤ 31 ∧
  0 ≤ tm.tm_hour ∧ tm.tm_hour ≤ 23 ∧ 0 ≤ tm.tm_min ∧ tm.tm_min ≤ 59 ∧
  0 ≤ tm.tm_sec ∧ tm.tm_sec ≤ 60

instance (tm : Tm) : Decidable tm.valid := by
  unfold Tm.valid; infer_instance

/-- A clock reading and a text that `processMessage` prints as a readable row:
the text has no comma or newline and holds a character that is not white
space, and the line fits the read buffer of 256 bytes. -/
def readableText (peer : Int) (p : Tm × List Char) : Prop :=
  p.1.valid ∧ p.2.dropWhile isspace ≠ [] ∧ ',' ∉ p.2 ∧ '\n' ∉ p.2 ∧
  (fmtRow (fmtDate p.1) peer p.2 0).length ≤ 255

instance (peer : Int) (p : Tm × List Char) : Decidable (readableText peer p) := by
  unfold readableText; infer_instance

/-- The name, surname and phone of the contact have no newline, so that
`fmtContact` prints a single line. -/
def User.oneLine (u : User) : Prop :=
  '\n' ∉ u.name ∧ '\n' ∉ u.surname ∧ '\n' ∉ u.phoneNumber

instance (u : User) : Decidable u.oneLine := by
  unfold User.oneLine; infer_instance

/-- A contact that `sendContactList` reads back in full: name and surname are
non-empty and have no comma or newline, the phone is non-empty and has no
newline, and each fits its array of `REGISTRATION_BUFFER_SIZE` bytes. -/
def User.listable (u : User) : Prop :=
  u.name ≠ [] ∧ ',' ∉ u.name ∧ '\n' ∉ u.name ∧ u.name.length < REGISTRATION_BUFFER_SIZE ∧
  u.surname ≠ [] ∧ ',' ∉ u.surname ∧ '\n' ∉ u.surname ∧
  u.surname.length < REGISTRATION_BUFFER_SIZE ∧
  u.phoneNumber ≠ [] ∧ '\n' ∉ u.phoneNumber ∧ u.phoneNumber.length < REGISTRATION_BUFFER_SIZE

instance (u : User) : Decidable u.listable := by
  unfold User.listable; infer_instance

/-- A field of a registration: non-empty, without comma or newline, and
fitting the 1024-byte arrays of `isUserRegistered`. -/
def isField (s : List Char) : Prop :=
  s ≠ [] ∧ ',' ∉ s ∧ '\n' ∉ s ∧ s.length < 1024

instance (s : List Char) : Decidable (isField s) := by
  unfold isField; infer_instance

/-- A profile whose four strings are fields. -/
def User.profile (p : User) : Prop :=
  isField p.username ∧ isField p.phoneNumber ∧ isField p.name ∧ isField p.surname

instance (p : User) : Decidable p.profile := by
  unfold User.profile; infer_instance

/-! ## Sessions -/

/-- Serves the records one after the other; each comes with the descriptor of
the thread that reads it and the clock at that moment. -/
def serve : World → List (Int × Tm × Option Received) → Except Fault World
  | w, [] => Except.ok w
  | w, (sock, tm, received) :: rest =>
    match handleClient w tm sock received with
    | Except.error e => Except.error e
    | Except.ok (w1, _) => serve w1 rest

/-- A `User` of empty strings. -/
def noUser : User := ⟨0, [], [], [], []⟩

/-- A login request of identity `i`. -/
def loginRequest (i : Int) : Option Received := some ⟨0, [], noUser, -1, i⟩

/-- A registration request of identity `i`. -/
def registrationRequest (i : Int) (body : String) : Option Received :=
  some ⟨2, body.toList, noUser, -1, i⟩

/-- A list-contacts request. -/
def listContacts (i : Int) : Option Received := some ⟨4, [], noUser, -1, i⟩

/-- An add-contact request of `owner` for the contact `c`. -/
def addContact (owner : Int) (c : Int) (name surname phone : String) : Option Received :=
  some ⟨5, [], ⟨c, [], phone.toList, name.toList, surname.toList⟩, -1, owner⟩

/-- A remove-contact request. -/
def removeContact (owner c : Int) : Option Received := some ⟨6, [], noUser, c, owner⟩

/-- A send-message request. -/
def sendMessage (a b : Int) (text : String) : Option Received :=
  some ⟨7, text.toList, noUser, b, a⟩

/-- A check-unread request. -/
def checkUnread (i : Int) : Option Received := some ⟨8, [], noUser, -1, i⟩

/-- A mark-read request of `i` for the peer `p`. -/
def markRead (i p : Int) : Option Received := some ⟨9, [], noUser, p, i⟩

/-- The messages file of a user after a session, when the session returns. -/
def messagesAfter (r : Except Fault World) (userId : Int) : Option (List Char) :=
  match r with
  | Except.error _ => none
  | Except.ok w => w.readMessages userId

/-- The contact list of a user after a session, when the session returns. -/
def contactsAfter (r : Except Fault World) (userId : Int) : Option (List Char) :=
  match r with
  | Except.error _ => none
  | Except.ok w => w.readContactList userId

/-- The records sent during a session, when the session returns. -/
def sentAfter (r : Except Fault World) : Option (List (Int × Message)) :=
  match r with
  | Except.error _ => none
  | Except.ok w => some w.sent

/-- The registry lookup of an identity after a session, when the session
returns. -/
def lookupAfter (r : Except Fault World) (userId : Int) : Option Int :=
  match r with
  | Except.error _ => none
  | Except.ok w => some (findSocketByUserId userId w.clients)

/-- The fault a session ends in, if any. -/
def faultOf (r : Except Fault World) : Option Fault :=
  match r with
  | Except.error e => some e
  | Except.ok _ => none

/-- The file `user_list.txt` after a session, when the session returns. -/
def userListAfter (r : Except Fault World) : Option (List Char) :=
  match r with
  | Except.error _ => none
  | Except.ok w => w.user_list

/-! ## Worlds of the examples -/

/-- The clock reading 2024-01-05 09:03:07. -/
def noon : Tm := ⟨124, 0, 5, 9, 3, 7⟩

/-- The start of the server with the descriptors 5 and 6 connected. -/
def start : World := World.init (fun fd => fd == 5 || fd == 6)

/-- Users 1 and 2 registered with empty files and logged in on the descriptors
5 and 6. -/
def twoUsers : World :=
  { clients := fun i => if i = 1 then 5 else if i = 2 then 6 else 0
    live := fun fd => fd == 5 || fd == 6
    user_list := some "1,ann,555,Ann,Lee\n2,bob,556,Bob,Ray\n".toList
    dirs := fun j => if j = 1 ∨ j = 2 then some ⟨some [], some []⟩ else none
    sent := [] }

/-- The world `twoUsers` in which user 2 holds three rows: of peer 1 (read),
of peer 3 (unread) and of peer 1 (unread). -/
def inbox : World :=
  twoUsers.setDir 2 ⟨some [], some
    "2024-01-05 09:03:07, 1, hi, 1\n2024-01-05 09:03:08, 3, yo, 0\n2024-01-05 09:03:09, 1, ok, 0\n".toList⟩


/-! # Lemmas -/

/-! ## Printing and reading numbers -/

theorem digitChar_spec : ∀ d, d < 10 →
    (digitChar d).isDigit = true ∧ (digitChar d).toNat - 48 = d ∧ isspace (digitChar d) = false
      ∧ digitChar d ≠ ',' ∧ digitChar d ≠ '\n' ∧ digitChar d ≠ '-' ∧ digitChar d ≠ '+' := by
  decide

theorem printNatAux_acc (fuel n : Nat) (acc : List Char) :
    printNatAux fuel n acc = printNatAux fuel n [] ++ acc := by
  induction fuel generalizing n acc with
  | zero => simp [printNatAux]
  | succ f ih =>
    unfold printNatAux
    split
    · simp
    · rw [ih, ih (n / 10) [digitChar (n % 10)]]; simp

theorem printNatAux_fuel (f1 f2 n : Nat) (acc : List Char) (h1 : n < f1) (h2 : n < f2) :
    printNatAux f1 n acc = printNatAux f2 n acc := by
  induction f1 generalizing f2 n acc with
  | zero => omega
  | succ f ih =>
    cases f2 with
    | zero => omega
    | succ g =>
      unfold printNatAux
      split
      · rfl
      · exact ih g (n / 10) _ (by omega) (by omega)

theorem printNat_small (n : Nat) (h : n < 10) : printNat n = [digitChar n] := by
  simp [printNat, printNatAux, h]

theorem printNat_big (n : Nat) (h : ¬ n < 10) :
    printNat n = printNat (n / 10) ++ [digitChar (n % 10)] := by
  have h1 : printNat n = printNatAux n (n / 10) [digitChar (n % 10)] := by
    simp [printNat, printNatAux, h]
  rw [h1, printNatAux_acc, printNat]
  congr 1
  exact printNatAux_fuel _ _ _ _ (by omega) (by omega)


theorem printNat_digits (n : Nat) : ∀ c ∈ printNat n, ∃ d, d < 10 ∧ c = digitChar d := by
  induction n using Nat.strong_induction_on with
  | _ n ih =>
    by_cases h : n < 10
    · rw [printNat_small n h]
      intro c hc
      exact ⟨n, h, by simpa using hc⟩
    · rw [printNat_big n h]
      intro c hc
      rcases List.mem_append.1 hc with hc | hc
      · exact ih (n / 10) (by omega) c hc
      · exact ⟨n % 10, by omega, by simpa using hc⟩

theorem printNat_head (n : Nat) : ∃ d tl, d < 10 ∧ printNat n = digitChar d :: tl := by
  induction n using Nat.strong_induction_on with
  | _ n ih =>
    by_cases h : n < 10
    · exact ⟨n, [], h, printNat_small n h⟩
    · obtain ⟨d, tl, hd, e⟩ := ih (n / 10) (by omega)
      exact ⟨d, tl ++ [digitChar (n % 10)], hd, by rw [printNat_big n h, e]; rfl⟩

@[simp] theorem noDigitHead_nil : noDigitHead [] = true := rfl

@[simp] theorem noDigitHead_cons (c : Char) (cs : List Char) :
    noDigitHead (c :: cs) = !c.isDigit := rfl

theorem scanDigits_append (ds rest : List Char) (acc : Nat) (h : ∀ c ∈ ds, c.isDigit = true) :
    scanDigits (ds ++ rest) acc
      = scanDigits rest (ds.foldl (fun a c => 10 * a + (c.toNat - 48)) acc) := by
  induction ds generalizing acc with
  | nil => rfl
  | cons d ds ih =>
    have hd : d.isDigit = true := h d (by simp)
    simp only [List.cons_append, scanDigits, hd, if_true, List.foldl_cons]
    exact ih _ (fun c hc => h c (by simp [hc]))

theorem scanDigits_stop (rest : List Char) (acc : Nat) (h : noDigitHead rest = true) :
    scanDigits rest acc = (acc, rest) := by
  cases rest with
  | nil => rfl
  | cons c cs =>
    have hc : c.isDigit = false := by simpa using h
    simp [scanDigits, hc]

theorem foldl_printNat (n : Nat) :
    (printNat n).foldl (fun a c => 10 * a + (c.toNat - 48)) 0 = n := by
  induction n using Nat.strong_induction_on with
  | _ n ih =>
    by_cases h : n < 10
    · rw [printNat_small n h]
      simp [(digitChar_spec n h).2.1]
    · rw [printNat_big n h, List.foldl_append, ih (n / 10) (by omega)]
      simp [(digitChar_spec (n % 10) (by omega)).2.1]
      omega

theorem scanDigits_printNat (n : Nat) (rest : List Char) (h : noDigitHead rest = true) :
    scanDigits (printNat n ++ rest) 0 = (n, rest) := by
  rw [scanDigits_append _ _ _ (fun c hc => by
    obtain ⟨d, hd, e⟩ := printNat_digits n c hc
    rw [e]; exact (digitChar_spec d hd).1), foldl_printNat, scanDigits_stop _ _ h]

theorem scanInt_printInt (i : Int) (rest : List Char) (h : noDigitHead rest = true) :
    scanInt (printInt i ++ rest) = Conv.ok i rest := by
  cases i with
  | ofNat n =>
    obtain ⟨d, tl, hd, e⟩ := printNat_head n
    have hs := digitChar_spec d hd
    have key := scanDigits_printNat n rest h
    simp only [printInt] at *
    rw [e] at key ⊢
    simp only [scanInt, List.cons_append, List.dropWhile_cons, hs.2.2.1] at key ⊢
    simp [hs.1, hs.2.2.2.2.2.1, hs.2.2.2.2.2.2, key]
  | negSucc n =>
    obtain ⟨d, tl, hd, e⟩ := printNat_head (n + 1)
    have hs := digitChar_spec d hd
    have key := scanDigits_printNat (n + 1) rest h
    simp only [printInt] at *
    rw [e] at key ⊢
    have hm : isspace '-' = false := by decide
    simp only [scanInt, List.cons_append, List.dropWhile_cons, hm] at key ⊢
    simp [hs.1, key, Int.negSucc_eq]
/-! ## Reading back what `fprintf` wrote -/

theorem takeWhile_stop (stop : Char) (s rest : List Char) (hs : stop ∉ s) :
    (s ++ stop :: rest).takeWhile (fun x => x != stop) = s := by
  induction s with
  | nil => simp
  | cons c cs ih =>
    have hc : c ≠ stop := fun e => hs (by simp [e])
    simp only [List.cons_append, List.takeWhile_cons, bne_iff_ne, ne_eq, hc, not_false_eq_true,
      decide_True, if_true]
    rw [ih (fun h => hs (by simp [h]))]

theorem dropWhile_stop (stop : Char) (s rest : List Char) (hs : stop ∉ s) :
    (s ++ stop :: rest).dropWhile (fun x => x != stop) = stop :: rest := by
  induction s with
  | nil => simp
  | cons c cs ih =>
    have hc : c ≠ stop := fun e => hs (by simp [e])
    simp only [List.cons_append, List.dropWhile_cons, bne_iff_ne, ne_eq, hc, not_false_eq_true,
      decide_True, if_true]
    rw [ih (fun h => hs (by simp [h]))]

theorem scanNotChar_field (stop : Char) (s rest : List Char) (hne : s ≠ []) (hs : stop ∉ s) :
    scanNotChar stop (s ++ stop :: rest) = Conv.ok s (stop :: rest) := by
  have h1 := takeWhile_stop stop s rest hs
  have h2 := dropWhile_stop stop s rest hs
  cases s with
  | nil => exact absurd rfl hne
  | cons c cs =>
    have hc : c ≠ stop := fun e => hs (by simp [e])
    simp only [List.cons_append] at h1 h2 ⊢
    simp only [scanNotChar, hc, if_false, h1, h2]

theorem printInt_chars (i : Int) : ∀ c ∈ printInt i, c = '-' ∨ ∃ d, d < 10 ∧ c = digitChar d := by
  cases i with
  | ofNat n => intro c hc; exact Or.inr (printNat_digits n c hc)
  | negSucc n =>
    intro c hc
    simp only [printInt, List.mem_cons] at hc
    rcases hc with hc | hc
    · exact Or.inl hc
    · exact Or.inr (printNat_digits _ c hc)

theorem printNat_no (n : Nat) (c : Char) (hc : c.isDigit = false) : c ∉ printNat n := by
  intro h
  obtain ⟨d, hd, e⟩ := printNat_digits n c h
  rw [e, (digitChar_spec d hd).1] at hc
  exact absurd hc (by simp)

theorem printInt_no (i : Int) (c : Char) (hc : c.isDigit = false) (hm : c ≠ '-') :
    c ∉ printInt i := by
  intro h
  rcases printInt_chars i c h with e | ⟨d, hd, e⟩
  · exact hm e
  · rw [e, (digitChar_spec d hd).1] at hc
    exact absurd hc (by simp)

theorem printInt_head (i : Int) : ∃ c tl, printInt i = c :: tl ∧ isspace c = false := by
  cases i with
  | ofNat n =>
    obtain ⟨d, tl, hd, e⟩ := printNat_head n
    exact ⟨_, tl, e, (digitChar_spec d hd).2.2.1⟩
  | negSucc n => exact ⟨'-', _, rfl, by decide⟩

theorem dropWhile_isspace_printInt (i : Int) (rest : List Char) :
    (printInt i ++ rest).dropWhile isspace = printInt i ++ rest := by
  obtain ⟨c, tl, e, hc⟩ := printInt_head i
  rw [e]; simp [List.dropWhile_cons, hc]

theorem scanf_int (ds : List Directive) (i : Int) (rest : List Char) (vals : List Value)
    (h : noDigitHead rest = true) :
    scanf (Directive.int :: ds) (printInt i ++ rest) vals = scanf ds rest (vals ++ [Value.int i]) := by
  simp only [scanf, scanInt_printInt i rest h]

theorem scanf_notChar (ds : List Directive) (stop : Char) (s rest : List Char) (vals : List Value)
    (hne : s ≠ []) (hs : stop ∉ s) :
    scanf (Directive.notChar stop :: ds) (s ++ stop :: rest) vals
      = scanf ds (stop :: rest) (vals ++ [Value.str s]) := by
  simp only [scanf, scanNotChar_field stop s rest hne hs]

theorem scanf_skipNotChar (ds : List Directive) (stop : Char) (s rest : List Char)
    (vals : List Value) (hne : s ≠ []) (hs : stop ∉ s) :
    scanf (Directive.skipNotChar stop :: ds) (s ++ stop :: rest) vals
      = scanf ds (stop :: rest) vals := by
  simp only [scanf, scanNotChar_field stop s rest hne hs]

theorem scanf_char (ds : List Directive) (c : Char) (rest : List Char) (vals : List Value) :
    scanf (Directive.char c :: ds) (c :: rest) vals = scanf ds rest vals := by
  simp [scanf]

theorem scanf_space (ds : List Directive) (inp : List Char) (vals : List Value) :
    scanf (Directive.space :: ds) inp vals = scanf ds (inp.dropWhile isspace) vals := rfl

theorem scanf_nil (inp : List Char) (vals : List Value) :
    scanf [] inp vals = ⟨some vals.length, vals, inp⟩ := rfl

theorem dropWhile_isspace_space (rest : List Char) :
    (' ' :: rest).dropWhile isspace = rest.dropWhile isspace := by
  simp [List.dropWhile_cons, show isspace ' ' = true from by decide]

theorem dropWhile_isspace_text (s rest : List Char) (h : s.dropWhile isspace ≠ []) :
    (s ++ rest).dropWhile isspace = s.dropWhile isspace ++ rest := by
  induction s with
  | nil => simp at h
  | cons c cs ih =>
    by_cases hc : isspace c = true
    · simp only [List.cons_append, List.dropWhile_cons, hc, if_true] at h ⊢
      exact ih h
    · simp [List.dropWhile_cons, hc]

theorem dropWhile_isspace_of_head (s : List Char) (h : noSpaceHead s = true) :
    s.dropWhile isspace = s := by
  cases s with
  | nil => rfl
  | cons c cs =>
    have hc : isspace c = false := by simpa [noSpaceHead] using h
    simp [List.dropWhile_cons, hc]

theorem not_mem_dropWhile (c : Char) (s : List Char) (p : Char → Bool) (h : c ∉ s) :
    c ∉ s.dropWhile p :=
  fun hc => h ((List.dropWhile_sublist p).subset hc)

theorem scanf_row (m : MessageData) (h : m.readable) :
    scanf rowFormat (fmtRow m.date m.fromUserId m.messageText m.readStatus) []
      = ⟨some 4, [Value.str m.date, Value.int m.fromUserId,
          Value.str (m.messageText.dropWhile isspace), Value.int m.readStatus], []⟩ := by
  obtain ⟨hd1, hd2, -, -, ht1, ht2, -, -⟩ := h
  simp only [fmtRow, rowFormat, List.append_assoc, List.cons_append, List.nil_append]
  rw [scanf_notChar _ _ _ _ _ hd1 hd2, scanf_char, scanf_space, dropWhile_isspace_space,
    dropWhile_isspace_printInt, scanf_int _ _ _ _ (by simp), scanf_char, scanf_space,
    dropWhile_isspace_space, dropWhile_isspace_text _ _ ht1,
    scanf_notChar _ _ _ _ _ ht1 (not_mem_dropWhile _ _ _ ht2), scanf_char, scanf_space,
    dropWhile_isspace_space, dropWhile_isspace_printInt, scanf_int _ _ _ _ (by decide),
    scanf_space, scanf_nil]
  simp [List.dropWhile_cons, show isspace '\n' = true from by decide]

/-! ## Lines of `messages.txt` -/

theorem fgetsAux_line (k : Nat) (body rest : List Char) (hb : '\n' ∉ body)
    (hk : body.length < k) : fgetsAux k (body ++ '\n' :: rest) = (body ++ ['\n'], rest) := by
  induction body generalizing k with
  | nil =>
    cases k with
    | zero => simp at hk
    | succ k => simp [fgetsAux]
  | cons c cs ih =>
    cases k with
    | zero => simp at hk
    | succ k =>
      have hc : c ≠ '\n' := fun e => hb (by simp [e])
      have := ih k (fun h => hb (by simp [h])) (by simpa using hk)
      simp [fgetsAux, hc, this]

theorem fgets_line (size : Nat) (body rest : List Char) (hb : '\n' ∉ body)
    (hk : body.length + 1 < size) :
    fgets size (body ++ '\n' :: rest) = some (body ++ ['\n'], rest) := by
  have h := fgetsAux_line (size - 1) body rest hb (by omega)
  cases hbody : body ++ '\n' :: rest with
  | nil => simp at hbody
  | cons c cs => rw [hbody] at h; simp [fgets, h]

theorem fmtRow_length (date : List Char) (peer : Int) (text : List Char) (rs : Int) :
    (fmtRow date peer text rs).length
      = date.length + (printInt peer).length + text.length + (printInt rs).length + 7 := by
  simp [fmtRow]; omega

theorem fgets_row (m : MessageData) (h : m.readable) (rest : List Char) :
    fgets 256 (fmtRow m.date m.fromUserId m.messageText m.readStatus ++ rest)
      = some (fmtRow m.date m.fromUserId m.messageText m.readStatus, rest) := by
  obtain ⟨-, -, hd3, -, -, -, ht3, hlen⟩ := h
  have hp1 : '\n' ∉ printInt m.fromUserId := printInt_no _ _ (by decide) (by decide)
  have hp2 : '\n' ∉ printInt m.readStatus := printInt_no _ _ (by decide) (by decide)
  have e : fmtRow m.date m.fromUserId m.messageText m.readStatus
      = (m.date ++ [',', ' '] ++ printInt m.fromUserId ++ [',', ' '] ++ m.messageText ++ [',', ' ']
          ++ printInt m.readStatus) ++ ['\n'] := rfl
  rw [fmtRow_length] at hlen
  rw [e, List.append_assoc _ ['\n'] rest]
  exact fgets_line 256 _ rest (by simp [hd3, ht3, hp1, hp2]) (by simp; omega)

theorem sscanfRow_row (m : MessageData) (h : m.readable) :
    sscanfRow (fmtRow m.date m.fromUserId m.messageText m.readStatus)
      = Except.ok ⟨some m.date, some m.fromUserId, some (m.messageText.dropWhile isspace),
          some m.readStatus⟩ := by
  have hlen := h.2.2.2.2.2.2.2
  rw [fmtRow_length] at hlen
  have hd := h.2.2.2.1
  have hsub : (m.messageText.dropWhile isspace).length ≤ m.messageText.length :=
    (List.dropWhile_sublist isspace).length_le
  simp only [sscanfRow, scanf_row m h]
  simp
  constructor <;> omega

theorem messagesFile_cons (m : MessageData) (rows : List MessageData) :
    messagesFile (m :: rows)
      = fmtRow m.date m.fromUserId m.messageText m.readStatus ++ messagesFile rows := by
  simp [messagesFile]

theorem messagesFile_append (r1 r2 : List MessageData) :
    messagesFile (r1 ++ r2) = messagesFile r1 ++ messagesFile r2 := by
  simp [messagesFile]

/-- What the reading loop of `readUserMessagesAndSetReadStatus` stores for a
row: the text without its leading white space, and `setRead` for `readStatus`. -/
theorem readMessageData_rows (targetUserId : Int) (rows : List MessageData)
    (hwf : ∀ m ∈ rows, m.readable) (fuel : Nat) (hf : (messagesFile rows).length < fuel)
    (acc : List MessageData) :
    readMessageData targetUserId fuel (messagesFile rows) acc
      = Except.ok (acc ++ rows.map (markedRow targetUserId)) := by
  induction rows generalizing fuel acc with
  | nil =>
    cases fuel with
    | zero => simp at hf
    | succ f => simp [messagesFile, readMessageData, fgets]
  | cons m rows ih =>
    cases fuel with
    | zero => simp at hf
    | succ f =>
      have hm : m.readable := hwf m (by simp)
      rw [messagesFile_cons] at hf ⊢
      have hl := fmtRow_length m.date m.fromUserId m.messageText m.readStatus
      simp only [readMessageData, fgets_row m hm, sscanfRow_row m hm]
      rw [ih (fun x hx => hwf x (by simp [hx])) f (by simp at hf; omega)]
      simp [markedRow]

theorem countUnread_rows (rows : List MessageData) (hwf : ∀ m ∈ rows, m.readable)
    (hrange : ∀ m ∈ rows, m.readStatus = 0 → 0 ≤ m.fromUserId ∧ m.fromUserId < MAX_USERS)
    (fuel : Nat) (hf : (messagesFile rows).length < fuel) (unreadCounts : Nat → Nat) :
    countUnread fuel (messagesFile rows) unreadCounts
      = Except.ok (fun i => unreadCounts i + unreadFrom rows i) := by
  induction rows generalizing fuel unreadCounts with
  | nil =>
    cases fuel with
    | zero => simp at hf
    | succ f => simp [messagesFile, countUnread, fgets, unreadFrom]
  | cons m rows ih =>
    cases fuel with
    | zero => simp at hf
    | succ f =>
      have hm : m.readable := hwf m (by simp)
      rw [messagesFile_cons] at hf ⊢
      have hl := fmtRow_length m.date m.fromUserId m.messageText m.readStatus
      have hf2 : (messagesFile rows).length < f := by simp at hf; omega
      have ih2 := ih (fun x hx => hwf x (by simp [hx])) (fun x hx => hrange x (by simp [hx])) f hf2
      simp only [countUnread, fgets_row m hm, sscanfRow_row m hm]
      by_cases hr : m.readStatus = 0
      · have hrg := hrange m (by simp) hr
        simp only [hr, if_true, hrg, and_self, ih2]
        congr 1
        funext i
        by_cases hi : i = m.fromUserId.toNat
        · have : m.fromUserId.toNat = i := hi.symm
          simp [unreadFrom, List.filter_cons, hr, hi]; omega
        · have : ¬ m.fromUserId.toNat = i := fun e => hi e.symm
          simp [unreadFrom, List.filter_cons, hr, hi, this]
      · simp only [hr, if_false, ih2]
        congr 1
        funext i
        simp [unreadFrom, List.filter_cons, hr]
/-! ## The date `processMessage` prints -/

theorem printNat_length_le (n : Nat) : ∀ k, 1 ≤ k → n < 10 ^ k → (printNat n).length ≤ k := by
  induction n using Nat.strong_induction_on with
  | _ n ih =>
    intro k hk h
    by_cases hn : n < 10
    · rw [printNat_small n hn]; simpa using hk
    · rw [printNat_big n hn]
      have hk2 : 2 ≤ k := by
        by_contra hc
        have : k = 1 := by omega
        subst this
        omega
      have hdiv : n / 10 < 10 ^ (k - 1) := by
        have e : 10 ^ k = 10 ^ (k - 1) * 10 := by
          rw [← pow_succ]; congr 1; omega
        rw [e] at h
        exact Nat.div_lt_of_lt_mul (by omega)
      have := ih (n / 10) (by omega) (k - 1) (by omega) hdiv
      simp; omega

theorem printNat_ne_nil (n : Nat) : printNat n ≠ [] := by
  obtain ⟨d, tl, -, e⟩ := printNat_head n
  rw [e]; simp

theorem printInt_ne_nil (i : Int) : printInt i ≠ [] := by
  obtain ⟨c, tl, e, -⟩ := printInt_head i
  rw [e]; simp

theorem printInt_length_le (i : Int) (h1 : -2147483648 ≤ i) (h2 : i ≤ 2147483647) :
    (printInt i).length ≤ 11 := by
  cases i with
  | ofNat n =>
    have : n < 10 ^ 10 := by
      have : (n : Int) ≤ 2147483647 := h2
      omega
    have := printNat_length_le n 10 (by omega) this
    simp only [printInt]; omega
  | negSucc n =>
    have : n + 1 < 10 ^ 10 := by
      have : -2147483648 ≤ Int.negSucc n := h1
      rw [Int.negSucc_eq] at this
      omega
    have := printNat_length_le (n + 1) 10 (by omega) this
    simp only [printInt, List.length_cons]; omega

theorem printInt02_length (i : Int) (h1 : 0 ≤ i) (h2 : i ≤ 99) : (printInt02 i).length = 2 := by
  cases i with
  | ofNat n =>
    have hn : n ≤ 99 := by
      have : (n : Int) ≤ 99 := h2
      omega
    by_cases h : n < 10
    · simp [printInt02, printInt, printNat_small n h]
    · have e : printNat n = [digitChar (n / 10), digitChar (n % 10)] := by
        rw [printNat_big n h, printNat_small (n / 10) (by omega)]; rfl
      simp [printInt02, printInt, e]
  | negSucc n => exact absurd h1 (by simp [Int.negSucc_lt_zero])

theorem printInt02_no (i : Int) (c : Char) (hc : c.isDigit = false) (hm : c ≠ '-') :
    c ∉ printInt02 i := by
  have h0 : c ≠ '0' := fun e => by rw [e] at hc; exact absurd hc (by decide)
  have := printInt_no i c hc hm
  unfold printInt02
  split <;> simp [h0, this]

theorem fmtDate_no (tm : Tm) (c : Char) (hc : c.isDigit = false) (h1 : c ≠ '-') (h2 : c ≠ ' ')
    (h3 : c ≠ ':') : c ∉ fmtDate tm := by
  simp [fmtDate, printInt_no _ c hc h1, printInt02_no _ c hc h1, h1, h2, h3]

theorem fmtDate_ne_nil (tm : Tm) : fmtDate tm ≠ [] := by
  simp [fmtDate, printInt_ne_nil]

theorem fmtDate_length (tm : Tm) (h : tm.valid) : (fmtDate tm).length ≤ 26 := by
  obtain ⟨h1, h2, h3, h4, h5, h6, h7, h8, h9, h10, h11, h12⟩ := h
  have y := printInt_length_le _ h1 h2
  have a := printInt02_length (tm.tm_mon + 1) (by omega) (by omega)
  have b := printInt02_length tm.tm_mday (by omega) (by omega)
  have c := printInt02_length tm.tm_hour (by omega) (by omega)
  have d := printInt02_length tm.tm_min (by omega) (by omega)
  have e := printInt02_length tm.tm_sec (by omega) (by omega)
  simp [fmtDate, a, b, c, d, e]
  omega
/-! ## World bookkeeping -/

@[simp] theorem send_dirs (w : World) (s : Int) (m : Message) : (send w s m).1.dirs = w.dirs := rfl

@[simp] theorem send_clients (w : World) (s : Int) (m : Message) :
    (send w s m).1.clients = w.clients := rfl

@[simp] theorem send_live (w : World) (s : Int) (m : Message) : (send w s m).1.live = w.live := rfl

@[simp] theorem send_sent (w : World) (s : Int) (m : Message) :
    (send w s m).1.sent = w.sent ++ [(s, m)] := rfl

@[simp] theorem send_ok (w : World) (s : Int) (m : Message) : (send w s m).2 = w.live s := rfl

@[simp] theorem confirm_dirs (w : World) (s : Int) (t : List Char) :
    (sendConfirmationMessage w s t).dirs = w.dirs := rfl

@[simp] theorem confirm_clients (w : World) (s : Int) (t : List Char) :
    (sendConfirmationMessage w s t).clients = w.clients := rfl

@[simp] theorem confirm_sent (w : World) (s : Int) (t : List Char) :
    (sendConfirmationMessage w s t).sent = w.sent ++ [(s, ⟨3, Body.text t, none, none⟩)] := rfl

@[simp] theorem setDir_dirs (w : World) (i j : Int) (d : UserDir) :
    (w.setDir i d).dirs j = if j = i then some d else w.dirs j := rfl

@[simp] theorem setDir_sent (w : World) (i : Int) (d : UserDir) : (w.setDir i d).sent = w.sent := rfl

@[simp] theorem setDir_clients (w : World) (i : Int) (d : UserDir) :
    (w.setDir i d).clients = w.clients := rfl

/-! ## Lines of `contact_list.txt` -/

theorem contactsFile_cons (u : User) (cs : List User) :
    contactsFile (u :: cs)
      = fmtContact u.userId u.name u.surname u.phoneNumber ++ contactsFile cs := by
  simp [contactsFile]

theorem contactsFile_append (c1 c2 : List User) :
    contactsFile (c1 ++ c2) = contactsFile c1 ++ contactsFile c2 := by
  simp [contactsFile]

theorem fmtContact_length (i : Int) (n s p : List Char) :
    (fmtContact i n s p).length = (printInt i).length + n.length + s.length + p.length + 4 := by
  simp [fmtContact]; omega

theorem dropWhile_isspace_contactsFile (cs : List User) :
    (contactsFile cs).dropWhile isspace = contactsFile cs := by
  cases cs with
  | nil => rfl
  | cons u cs =>
    rw [contactsFile_cons]
    simp only [fmtContact, List.append_assoc]
    exact dropWhile_isspace_printInt _ _

theorem dropWhile_isspace_newline (rest : List Char) :
    ('\n' :: rest).dropWhile isspace = rest.dropWhile isspace := by
  simp [List.dropWhile_cons, show isspace '\n' = true from by decide]

theorem scanf_contactId_line (u : User) (h : u.oneLine) (rest : List Char) :
    scanf contactIdFormat (fmtContact u.userId u.name u.surname u.phoneNumber ++ rest) []
      = ⟨some 1, [Value.int u.userId], rest.dropWhile isspace⟩ := by
  obtain ⟨h1, h2, h3⟩ := h
  have e : fmtContact u.userId u.name u.surname u.phoneNumber ++ rest
      = printInt u.userId ++ ',' :: ((u.name ++ ',' :: (u.surname ++ ',' :: u.phoneNumber))
          ++ '\n' :: rest) := by
    simp [fmtContact]
  rw [e, contactIdFormat, scanf_int _ _ _ _ (by simp), scanf_char,
    scanf_skipNotChar _ _ _ _ _ (by simp) (by simp [h1, h2, h3]), scanf_space,
    dropWhile_isspace_newline, scanf_nil]
  rfl

theorem scanForId_contacts (c : Int) (cs : List User) (hwf : ∀ u ∈ cs, u.oneLine)
    (fuel : Nat) (hf : (contactsFile cs).length < fuel) (id : Option Int) :
    scanForId contactIdFormat 0 c fuel (contactsFile cs) id
      = Except.ok (cs.any (fun u => decide (u.userId = c))) := by
  induction cs generalizing fuel id with
  | nil =>
    cases fuel with
    | zero => simp at hf
    | succ f => rfl
  | cons u cs ih =>
    cases fuel with
    | zero => simp at hf
    | succ f =>
      have hu : u.oneLine := hwf u (by simp)
      rw [contactsFile_cons] at hf ⊢
      have hl := fmtContact_length u.userId u.name u.surname u.phoneNumber
      have hf2 : (contactsFile cs).length < f := by simp at hf; omega
      have ih2 := ih (fun x hx => hwf x (by simp [hx])) f hf2 (some u.userId)
      simp only [scanForId, scanf_contactId_line u hu, dropWhile_isspace_contactsFile]
      by_cases hc : u.userId = c
      · simp [fitsBuffers, hc]
      · simp [fitsBuffers, hc, ih2]
        intro e
        rw [e] at hl
        simp at hl
/-! ## AddContact twice -/

theorem any_userId_false (c : Int) (cs : List User) (h : ∀ u ∈ cs, u.userId ≠ c) :
    cs.any (fun u => decide (u.userId = c)) = false := by
  simp only [List.any_eq_false, decide_eq_true_eq]
  exact h

/-- C2 (amended): the contact list of `owner` holds one-line entries, none with
the identity of `u1`.  An AddContact request carrying `u1`, whose name, surname
and phone have no newline, is answered "User added to contact list" and
appends the one line of `u1`; an AddContact request carrying any `u2` with the
same identity is then answered "User already exists in contact list" and leaves
the file as it is, with exactly one entry of that identity. -/
theorem addContact_then_already_exists (w : World) (tm1 tm2 : Tm) (sock1 sock2 owner : Int)
    (d : UserDir) (cs : List User) (u1 u2 : User) (b1 b2 : List Char) (t1 t2 : Int)
    (hd : w.dirs owner = some d) (hfile : d.contact_list = some (contactsFile cs))
    (hwf : ∀ u ∈ cs, u.oneLine) (hnew : ∀ u ∈ cs, u.userId ≠ u1.userId)
    (hu1 : u1.oneLine) (hsame : u2.userId = u1.userId) :
    ∃ w1 w2,
      handleClient w tm1 sock1 (some ⟨5, b1, u1, t1, owner⟩) = Except.ok (w1, true) ∧
      w1.sent = w.sent ++
        [(sock1, ⟨3, Body.text "User added to contact list".toList, none, none⟩)] ∧
      w1.readContactList owner = some (contactsFile (cs ++ [u1])) ∧
      handleClient w1 tm2 sock2 (some ⟨5, b2, u2, t2, owner⟩) = Except.ok (w2, true) ∧
      w2.sent = w1.sent ++
        [(sock2, ⟨3, Body.text "User already exists in contact list".toList, none, none⟩)] ∧
      w2.readContactList owner = some (contactsFile (cs ++ [u1])) ∧
      ((cs ++ [u1]).filter (fun u => u.userId = u1.userId)).length = 1 := by
  have hfile1 : contactsFile cs ++ fmtContact u1.userId u1.name u1.surname u1.phoneNumber
      = contactsFile (cs ++ [u1]) := by
    rw [contactsFile_append]; simp [contactsFile]
  have hscan1 := scanForId_contacts u1.userId cs hwf ((contactsFile cs).length + 1) (by omega) none
  rw [any_userId_false _ _ hnew] at hscan1
  have hwf2 : ∀ u ∈ cs ++ [u1], u.oneLine := by
    intro u hu
    rcases List.mem_append.1 hu with h | h
    · exact hwf u h
    · have : u = u1 := by simpa using h
      rw [this]; exact hu1
  have hscan2 := scanForId_contacts u2.userId (cs ++ [u1]) hwf2
    ((contactsFile (cs ++ [u1])).length + 1) (by omega) none
  have hany : (cs ++ [u1]).any (fun u => decide (u.userId = u2.userId)) = true := by
    simp [hsame]
  rw [hany] at hscan2
  refine ⟨sendConfirmationMessage
      (w.setDir owner { d with contact_list := some (contactsFile (cs ++ [u1])) }) sock1
      "User added to contact list".toList,
    sendConfirmationMessage (sendConfirmationMessage
      (w.setDir owner { d with contact_list := some (contactsFile (cs ++ [u1])) }) sock1
      "User added to contact list".toList) sock2 "User already exists in contact list".toList,
    ?_, rfl, ?_, ?_, rfl, ?_, ?_⟩
  · simp [handleClient, addUserToContactList, World.readContactList, World.writeContactList, hd,
      hfile, hscan1, hfile1, Except.map]
  · simp [World.readContactList]
  · simp [handleClient, addUserToContactList, World.readContactList, hscan2, Except.map]
  · simp [World.readContactList]
  · rw [List.filter_append, List.length_append]
    have : cs.filter (fun u => decide (u.userId = u1.userId)) = [] := by
      simp only [List.filter_eq_nil_iff, decide_eq_true_eq]
      exact hnew
    simp [this]

/-- Witness of C2 (amended): user 1 adds contact 5 to a list holding contact 3,
then adds 5 again under another name. -/
theorem addContact_then_already_exists_witness :
    ∃ w1 w2,
      handleClient (twoUsers.setDir 1 ⟨some "3,Cy,Poe,557\n".toList, some []⟩) noon 5
        (addContact 1 5 "Dee" "Fox" "558") = Except.ok (w1, true) ∧
      w1.sent = [(5, ⟨3, Body.text "User added to contact list".toList, none, none⟩)] ∧
      w1.readContactList 1 = some "3,Cy,Poe,557\n5,Dee,Fox,558\n".toList ∧
      handleClient w1 noon 5 (addContact 1 5 "Eve" "Gil" "559") = Except.ok (w2, true) ∧
      w2.sent = w1.sent ++
        [(5, ⟨3, Body.text "User already exists in contact list".toList, none, none⟩)] ∧
      w2.readContactList 1 = some "3,Cy,Poe,557\n5,Dee,Fox,558\n".toList ∧
      ([(⟨3, [], "557".toList, "Cy".toList, "Poe".toList⟩ : User),
        ⟨5, [], "558".toList, "Dee".toList, "Fox".toList⟩].filter
          (fun u => u.userId = 5)).length = 1 :=
  addContact_then_already_exists (twoUsers.setDir 1 ⟨some "3,Cy,Poe,557\n".toList, some []⟩)
    noon noon 5 5 1 ⟨some "3,Cy,Poe,557\n".toList, some []⟩
    [⟨3, [], "557".toList, "Cy".toList, "Poe".toList⟩]
    ⟨5, [], "558".toList, "Dee".toList, "Fox".toList⟩
    ⟨5, [], "559".toList, "Eve".toList, "Gil".toList⟩ [] [] (-1) (-1)
    rfl (by decide) (by decide) (by decide) (by decide) rfl

/-- C2 fails as stated.  The first AddContact of user 1 carries identity 5 and
the name "x\n5": two lines are appended, and read line by line the way the
server reads the file (`getline`, then `%d`) both begin with the identity 5. -/
theorem addContact_newline_name_two_lines :
    contactsAfter (serve start [(5, noon, registrationRequest 1 "ann,555,Ann,Lee"),
        (5, noon, addContact 1 5 "x\n5" "Fox" "558")]) 1 = some "5,x\n5,Fox,558\n".toList ∧
    (readLines 15 (some []) "5,x\n5,Fox,558\n".toList).map
        (fun line => (scanf [Directive.int] line []).vals)
      = [[Value.int 5], [Value.int 5]] := by
  decide
/-! ## Messages sent and counted -/

theorem sendMessage_step (w : World) (tm : Tm) (sock a b : Int) (text : List Char) (u : User)
    (dA dB : UserDir) (hab : a ≠ b) (hA : w.dirs a = some dA) (hB : w.dirs b = some dB)
    (htm : tm.valid) (h1 : findSocketByUserId b w.clients ≠ -1)
    (h2 : w.live (findSocketByUserId b w.clients) = true) :
    ∃ w1, handleClient w tm sock (some ⟨7, text, u, b, a⟩) = Except.ok (w1, true) ∧
      w1.clients = w.clients ∧ w1.live = w.live ∧
      w1.dirs a = some ⟨dA.contact_list, some (dA.messages.getD [] ++ fmtRow (fmtDate tm) b text 0)⟩ ∧
      w1.dirs b = some ⟨dB.contact_list, some (dB.messages.getD [] ++ fmtRow (fmtDate tm) a text 0)⟩ ∧
      (∀ j, j ≠ a → j ≠ b → w1.dirs j = w.dirs j) ∧
      w1.sent = w.sent ++ [(findSocketByUserId b w.clients,
          ⟨7, Body.text (text.take 1023), some b, some a⟩),
        (sock, ⟨3, Body.text "Message sent".toList, none, none⟩)] := by
  have hlen : (fmtDate tm).length < 50 := by have := fmtDate_length tm htm; omega
  have hba : b ≠ a := fun e => hab e.symm
  have key : handleClient w tm sock (some ⟨7, text, u, b, a⟩)
      = Except.ok (sendConfirmationMessage
          ((((((send w (findSocketByUserId b w.clients)
              ⟨7, Body.text (text.take 1023), some b, some a⟩).1.appendMessages a
                (fmtRow (fmtDate tm) b text 0)).getD
              (send w (findSocketByUserId b w.clients)
                ⟨7, Body.text (text.take 1023), some b, some a⟩).1).appendMessages b
                (fmtRow (fmtDate tm) a text 0))).getD
            (((send w (findSocketByUserId b w.clients)
              ⟨7, Body.text (text.take 1023), some b, some a⟩).1.appendMessages a
                (fmtRow (fmtDate tm) b text 0)).getD
              (send w (findSocketByUserId b w.clients)
                ⟨7, Body.text (text.take 1023), some b, some a⟩).1))
          sock "Message sent".toList, true) := by
    simp [handleClient, processMessage, h1, h2, hlen, Except.map]
  refine ⟨_, key, ?_, ?_, ?_, ?_, ?_, ?_⟩
  · simp [World.appendMessages, hA, hB, hab, hba, World.setDir]
  · simp [World.appendMessages, hA, hB, hab, hba, World.setDir, sendConfirmationMessage, send]
  · simp [World.appendMessages, hA, hB, hab, hba]
  · simp [World.appendMessages, hA, hB, hab, hba]
  · intro j hja hjb
    simp [World.appendMessages, hA, hB, hab, hba, hja, hjb]
  · simp [World.appendMessages, hA, hB, hab, hba]

theorem serve_sends_recipient (a b sock : Int) (u : User) (hab : a ≠ b)
    (msgs : List (Tm × List Char)) (htm : ∀ p ∈ msgs, p.1.valid) :
    ∀ (w : World) (dA : UserDir) (cl : Option (List Char)) (fb : List Char),
      w.dirs a = some dA → w.dirs b = some ⟨cl, some fb⟩ →
      findSocketByUserId b w.clients ≠ -1 → w.live (findSocketByUserId b w.clients) = true →
      ∃ w1, serve w (msgs.map (fun p => (sock, p.1, some ⟨7, p.2, u, b, a⟩))) = Except.ok w1 ∧
        w1.clients = w.clients ∧ w1.live = w.live ∧
        w1.dirs b = some ⟨cl, some (fb ++ messagesFile (msgs.map (sentRow a)))⟩ := by
  induction msgs with
  | nil =>
    intro w dA cl fb _ hB _ _
    exact ⟨w, rfl, rfl, rfl, by simp [messagesFile, hB]⟩
  | cons p ps ih =>
    intro w dA cl fb hA hB h1 h2
    obtain ⟨w1, hstep, hc, hl, hdA, hdB, -, -⟩ :=
      sendMessage_step w p.1 sock a b p.2 u dA ⟨cl, some fb⟩ hab hA hB (htm p (by simp)) h1 h2
    obtain ⟨w2, hserve, hc2, hl2, hdB2⟩ :=
      ih (fun q hq => htm q (by simp [hq])) w1 _ cl _ hdA hdB (by rw [hc]; exact h1)
        (by rw [hc, hl]; exact h2)
    refine ⟨w2, ?_, by rw [hc2, hc], by rw [hl2, hl], ?_⟩
    · simp only [List.map_cons, serve, hstep]
      exact hserve
    · rw [hdB2]
      simp [messagesFile_cons, sentRow]

theorem resendMessages_dirs (sock userId target : Int) (ms : List MessageData) :
    ∀ w : World, (resendMessages sock userId target w ms).dirs = w.dirs := by
  induction ms with
  | nil => intro w; rfl
  | cons m ms ih =>
    intro w
    simp only [resendMessages]
    split
    · rw [ih]; rfl
    · rw [ih]

theorem resendMessages_clients (sock userId target : Int) (ms : List MessageData) :
    ∀ w : World, (resendMessages sock userId target w ms).clients = w.clients := by
  induction ms with
  | nil => intro w; rfl
  | cons m ms ih =>
    intro w
    simp only [resendMessages]
    split
    · rw [ih]; rfl
    · rw [ih]

theorem resendMessages_sent (sock userId target : Int) (ms : List MessageData) :
    ∀ w : World, (resendMessages sock userId target w ms).sent
      = w.sent ++ (ms.filter (fun m => m.fromUserId = target)).map
          (fun m => (sock, readRecord userId m)) := by
  induction ms with
  | nil => intro w; simp [resendMessages]
  | cons m ms ih =>
    intro w
    simp only [resendMessages]
    by_cases h : m.fromUserId = target
    · simp [h, ih, readRecord, List.filter_cons]
    · simp [h, ih, List.filter_cons]

theorem markRead_step (w : World) (tm : Tm) (sock b target : Int) (body : List Char) (u : User)
    (cl : Option (List Char)) (rows : List MessageData)
    (hB : w.dirs b = some ⟨cl, some (messagesFile rows)⟩) (hwf : ∀ m ∈ rows, m.readable) :
    handleClient w tm sock (some ⟨9, body, u, target, b⟩)
      = Except.ok (sendConfirmationMessage
          (resendMessages sock b target
            (w.setDir b ⟨cl, some (messagesFile (rows.map (markedRow target)))⟩)
            (rows.map (markedRow target))) sock "Messages read".toList, true) := by
  have h := readMessageData_rows target rows hwf ((messagesFile rows).length + 1) (by omega) []
  rw [List.nil_append] at h
  simp [handleClient, readUserMessagesAndSetReadStatus, World.readMessages,
    World.writeMessages, hB, h, Except.map, rewrittenMessages]
  rfl

theorem checkUnread_step (w : World) (tm : Tm) (sock b t : Int) (body : List Char) (u : User)
    (cl : Option (List Char)) (rows : List MessageData)
    (hB : w.dirs b = some ⟨cl, some (messagesFile rows)⟩) (hwf : ∀ m ∈ rows, m.readable)
    (hrange : ∀ m ∈ rows, m.readStatus = 0 → 0 ≤ m.fromUserId ∧ m.fromUserId < MAX_USERS) :
    handleClient w tm sock (some ⟨8, body, u, t, b⟩)
      = Except.ok (if (List.range MAX_USERS.toNat).all (fun i => unreadFrom rows i = 0) then
            sendConfirmationMessage w sock "No unread message".toList
          else (send w sock ⟨8, Body.text (unreadBody (unreadFrom rows)), some b, some (-1)⟩).1,
          true) := by
  have h := countUnread_rows rows hwf hrange ((messagesFile rows).length + 1) (by omega)
    (fun _ => 0)
  have e : (fun i => 0 + unreadFrom rows i) = unreadFrom rows := by
    funext i; simp
  rw [e] at h
  by_cases hz : (List.range MAX_USERS.toNat).all (fun i => unreadFrom rows i = 0) = true
  · simp [handleClient, countUnreadMessagesAndSend, World.readMessages, hB, h, Except.map, hz]
  · simp [handleClient, countUnreadMessagesAndSend, World.readMessages, hB, h, Except.map, hz]

theorem sentRow_readable (peer : Int) (p : Tm × List Char) (h : readableText peer p) :
    (sentRow peer p).readable := by
  obtain ⟨h1, h2, h3, h4, h5⟩ := h
  refine ⟨fmtDate_ne_nil _, fmtDate_no _ _ (by decide) (by decide) (by decide) (by decide),
    fmtDate_no _ _ (by decide) (by decide) (by decide) (by decide), ?_, h2, h3, h4, h5⟩
  have := fmtDate_length p.1 h1
  simp only [sentRow]; omega

theorem markedRow_readable (target : Int) (m : MessageData) (h : m.readable)
    (hs : (printInt m.readStatus).length = 1) : (markedRow target m).readable := by
  obtain ⟨h1, h2, h3, h4, h5, h6, h7, h8⟩ := h
  have hsub : (m.messageText.dropWhile isspace).length ≤ m.messageText.length :=
    (List.dropWhile_sublist isspace).length_le
  have hidem : (m.messageText.dropWhile isspace).dropWhile isspace
      = m.messageText.dropWhile isspace := by
    cases hd : m.messageText.dropWhile isspace with
    | nil => rfl
    | cons c cs =>
      have hc := List.head_dropWhile_not isspace m.messageText (by rw [hd]; simp)
      simp only [hd, List.head_cons] at hc
      simp [List.dropWhile_cons, hc]
  refine ⟨h1, h2, h3, h4, ?_, not_mem_dropWhile _ _ _ h6, not_mem_dropWhile _ _ _ h7, ?_⟩
  · simp only [markedRow]; rw [hidem]; exact h5
  · rw [fmtRow_length] at h8 ⊢
    have : (printInt (if m.fromUserId = target then (1 : Int) else 0)).length = 1 := by
      split <;> rfl
    simp only [markedRow]
    omega

theorem unreadFrom_cons (m : MessageData) (rows : List MessageData) (i : Nat) :
    unreadFrom (m :: rows) i
      = unreadFrom rows i + if m.readStatus = 0 ∧ m.fromUserId.toNat = i then 1 else 0 := by
  unfold unreadFrom
  by_cases h : m.readStatus = 0 ∧ m.fromUserId.toNat = i
  · rw [List.filter_cons_of_pos (by simpa using h)]; simp [h]
  · rw [List.filter_cons_of_neg (by simpa using h)]; simp [h]

theorem unreadFrom_sent (a : Int) (msgs : List (Tm × List Char)) (i : Nat) :
    unreadFrom (msgs.map (sentRow a)) i = if i = a.toNat then msgs.length else 0 := by
  induction msgs with
  | nil => simp [unreadFrom]
  | cons p ps ih =>
    rw [List.map_cons, unreadFrom_cons, ih]
    by_cases h : i = a.toNat
    · simp [sentRow, h]
    · have h' : ¬ a.toNat = i := fun e => h e.symm
      simp [sentRow, h, h']

theorem unreadFrom_marked (target : Int) (rows : List MessageData)
    (h : ∀ m ∈ rows, m.fromUserId = target) (i : Nat) :
    unreadFrom (rows.map (markedRow target)) i = 0 := by
  simp only [unreadFrom, List.length_eq_zero, List.filter_eq_nil_iff, List.mem_map]
  rintro m ⟨x, hx, rfl⟩
  simp [markedRow, h x hx]

theorem unreadBody_single (k n : Nat) (hk : k < 10) (hn : 0 < n) :
    unreadBody (fun i => if i = k then n else 0) = fmtUnread n k := by
  have hf : ∀ i, decide (0 < if i = k then n else 0) = decide (i = k) := by
    intro i
    by_cases h : i = k <;> simp [h, hn]
  simp only [unreadBody, hf]
  have hr : MAX_USERS.toNat = 10 := rfl
  rw [hr]
  interval_cases k <;> simp [List.range_succ, List.filter_cons, List.flatMap]

theorem all_zero_single (k n : Nat) (hk : k < 10) (hn : 0 < n) :
    (List.range MAX_USERS.toNat).all (fun i => decide ((if i = k then n else 0) = 0)) = false := by
  have hr : MAX_USERS.toNat = 10 := rfl
  rw [hr, List.all_eq_false]
  exact ⟨k, by simpa using hk, by simp; omega⟩

/-! ## CheckUnread and MarkRead after N messages -/

/-- C3 (amended): `a` and `b` are distinct identities below `MAX_USERS`, both
with a directory, `b` logged in (its registry slot holds a descriptor on which
`send` succeeds) with an empty messages file.  After `N >= 1` SendMessage
requests from `a` to `b`, each text without comma or newline, holding a
character that is not white space, and with a line that fits the 256-byte read
buffer, CheckUnread for `b` sends one type-8 record whose body is exactly
"N Unread message from user a"; and after MarkRead with from `b` and to `a`,
CheckUnread for `b` is answered "No unread message". -/
theorem unread_count_then_mark_read (w : World) (a b sockA sockB : Int) (u : User)
    (dA : UserDir) (cl : Option (List Char)) (msgs : List (Tm × List Char)) (tm1 tm2 tm3 : Tm)
    (ha : 0 ≤ a ∧ a < MAX_USERS) (hb : 0 ≤ b ∧ b < MAX_USERS) (hab : a ≠ b)
    (hA : w.dirs a = some dA) (hB : w.dirs b = some ⟨cl, some []⟩)
    (hlogin : w.clients b.toNat ≠ -1 ∧ w.live (w.clients b.toNat) = true)
    (hn : msgs ≠ []) (hmsgs : ∀ p ∈ msgs, readableText a p) :
    ∃ w1 w2 w3 w4,
      serve w (msgs.map (fun p => (sockA, p.1, some ⟨7, p.2, u, b, a⟩))) = Except.ok w1 ∧
      handleClient w1 tm1 sockB (checkUnread b) = Except.ok (w2, true) ∧
      w2.sent = w1.sent ++
        [(sockB, ⟨8, Body.text (fmtUnread msgs.length a.toNat), some b, some (-1)⟩)] ∧
      handleClient w2 tm2 sockB (markRead b a) = Except.ok (w3, true) ∧
      handleClient w3 tm3 sockB (checkUnread b) = Except.ok (w4, true) ∧
      w4.sent = w3.sent ++
        [(sockB, ⟨3, Body.text "No unread message".toList, none, none⟩)] := by
  have hfind : findSocketByUserId b w.clients = w.clients b.toNat := by
    have h1 : ¬ (b < 0 ∨ b ≥ MAX_USERS) := by
      have := hb.1; have := hb.2; omega
    simp [findSocketByUserId, h1]
  have hak : a.toNat < 10 := by
    have := ha.1; have h2 := ha.2
    simp only [MAX_USERS] at h2
    omega
  have hlen : 0 < msgs.length := List.length_pos.2 hn
  obtain ⟨w1, hserve, -, -, hd1⟩ := serve_sends_recipient a b sockA u hab msgs
    (fun p hp => (hmsgs p hp).1) w dA cl [] hA hB (by rw [hfind]; exact hlogin.1)
    (by rw [hfind]; exact hlogin.2)
  rw [List.nil_append] at hd1
  have hread : ∀ m ∈ msgs.map (sentRow a), m.readable := by
    intro m hm
    obtain ⟨p, hp, rfl⟩ := List.mem_map.1 hm
    exact sentRow_readable a p (hmsgs p hp)
  have hrange : ∀ m ∈ msgs.map (sentRow a), m.readStatus = 0 →
      0 ≤ m.fromUserId ∧ m.fromUserId < MAX_USERS := by
    intro m hm _
    obtain ⟨p, -, rfl⟩ := List.mem_map.1 hm
    exact ha
  have hcount : unreadFrom (msgs.map (sentRow a))
      = fun i => if i = a.toNat then msgs.length else 0 := by
    funext i; exact unreadFrom_sent a msgs i
  have hstep1 := checkUnread_step w1 tm1 sockB b (-1) [] noUser cl _ hd1 hread hrange
  rw [hcount, unreadBody_single _ _ hak hlen] at hstep1
  simp only [all_zero_single _ _ hak hlen, Bool.false_eq_true, if_false] at hstep1
  have hd2 : (send w1 sockB ⟨8, Body.text (fmtUnread msgs.length a.toNat), some b,
      some (-1)⟩).1.dirs b = some ⟨cl, some (messagesFile (msgs.map (sentRow a)))⟩ := by
    rw [send_dirs]; exact hd1
  have hstep2 := markRead_step _ tm2 sockB b a [] noUser cl _ hd2 hread
  have hread3 : ∀ m ∈ (msgs.map (sentRow a)).map (markedRow a), m.readable := by
    intro m hm
    obtain ⟨x, hx, rfl⟩ := List.mem_map.1 hm
    obtain ⟨p, -, rfl⟩ := List.mem_map.1 hx
    exact markedRow_readable a _ (hread _ hx) rfl
  have hrange3 : ∀ m ∈ (msgs.map (sentRow a)).map (markedRow a), m.readStatus = 0 →
      0 ≤ m.fromUserId ∧ m.fromUserId < MAX_USERS := by
    intro m hm _
    obtain ⟨x, hx, rfl⟩ := List.mem_map.1 hm
    obtain ⟨p, -, rfl⟩ := List.mem_map.1 hx
    exact ha
  have hcount3 : unreadFrom ((msgs.map (sentRow a)).map (markedRow a)) = fun _ => 0 := by
    funext i
    apply unreadFrom_marked
    intro m hm
    obtain ⟨p, -, rfl⟩ := List.mem_map.1 hm
    rfl
  have hstep3 := checkUnread_step (sendConfirmationMessage (resendMessages sockB b a
      ((send w1 sockB ⟨8, Body.text (fmtUnread msgs.length a.toNat), some b, some (-1)⟩).1.setDir b
        ⟨cl, some (messagesFile ((msgs.map (sentRow a)).map (markedRow a)))⟩)
      ((msgs.map (sentRow a)).map (markedRow a))) sockB "Messages read".toList)
    tm3 sockB b (-1) [] noUser cl ((msgs.map (sentRow a)).map (markedRow a))
    (by rw [confirm_dirs, resendMessages_dirs]; simp) hread3 hrange3
  rw [hcount3] at hstep3
  simp only [decide_True, List.all_eq_true, implies_true, if_true] at hstep3
  exact ⟨w1, _, _, _, hserve, hstep1, rfl, hstep2, hstep3, rfl⟩

/-- Witness of C3 (amended): user 1 sends "hi" and "yo" to user 2. -/
theorem unread_count_then_mark_read_witness :
    ∃ w1 w2 w3 w4,
      serve twoUsers [(5, noon, sendMessage 1 2 "hi"), (5, noon, sendMessage 1 2 "yo")]
        = Except.ok w1 ∧
      handleClient w1 noon 6 (checkUnread 2) = Except.ok (w2, true) ∧
      w2.sent = w1.sent ++
        [(6, ⟨8, Body.text "2 Unread message from user 1\n".toList, some 2, some (-1)⟩)] ∧
      handleClient w2 noon 6 (markRead 2 1) = Except.ok (w3, true) ∧
      handleClient w3 noon 6 (checkUnread 2) = Except.ok (w4, true) ∧
      w4.sent = w3.sent ++
        [(6, ⟨3, Body.text "No unread message".toList, none, none⟩)] :=
  unread_count_then_mark_read twoUsers 1 2 5 6 noUser ⟨some [], some []⟩ (some [])
    [(noon, "hi".toList), (noon, "yo".toList)] noon noon noon (by decide) (by decide)
    (by decide) rfl rfl (by decide) (by decide) (by decide)

/-- C3 fails as stated.  User 1 sends user 2, who is logged in, the text " ":
non-empty, without comma or newline, in a short line.  In the stored row the
white space before the text conversion eats the text, `sscanf` returns 2 and
leaves `readStatus` unassigned, and CheckUnread for user 2 tests that variable. -/
theorem checkUnread_blank_text_undefined :
    messagesAfter (serve start [(5, noon, registrationRequest 1 "ann,555,Ann,Lee"),
        (5, noon, loginRequest 1), (6, noon, registrationRequest 2 "bob,556,Bob,Ray"),
        (6, noon, loginRequest 2), (5, noon, sendMessage 1 2 " ")]) 2
      = some "2024-01-05 09:03:07, 1,  , 0\n".toList ∧
    scanf rowFormat "2024-01-05 09:03:07, 1,  , 0\n".toList []
      = ⟨some 2, [Value.str "2024-01-05 09:03:07".toList, Value.int 1], ", 0\n".toList⟩ ∧
    faultOf (serve start [(5, noon, registrationRequest 1 "ann,555,Ann,Lee"),
        (5, noon, loginRequest 1), (6, noon, registrationRequest 2 "bob,556,Bob,Ray"),
        (6, noon, loginRequest 2), (5, noon, sendMessage 1 2 " "),
        (6, noon, checkUnread 2)]) = some Fault.undefinedBehaviour := by
  decide

/-! ## MarkRead: the rows of other peers -/

/-- C4, the code at the failing input: user 2 holds a row of peer 1 and a row
of peer 3.  MarkRead for peer 1 sets the first row to read; MarkRead for peer
3 then prints the row of peer 1 back with `readStatus` 0, since the value
stored for every row is `setRead`. -/
theorem markRead_resets_other_peers :
    messagesAfter (serve start [(5, noon, registrationRequest 1 "ann,555,Ann,Lee"),
        (6, noon, registrationRequest 2 "bob,556,Bob,Ray"),
        (5, noon, registrationRequest 3 "cy,557,Cy,Poe"), (6, noon, loginRequest 2),
        (5, noon, sendMessage 1 2 "hi"), (5, noon, sendMessage 3 2 "yo"),
        (6, noon, markRead 2 1)]) 2
      = some "2024-01-05 09:03:07, 1, hi, 1\n2024-01-05 09:03:07, 3, yo, 0\n".toList ∧
    messagesAfter (serve start [(5, noon, registrationRequest 1 "ann,555,Ann,Lee"),
        (6, noon, registrationRequest 2 "bob,556,Bob,Ray"),
        (5, noon, registrationRequest 3 "cy,557,Cy,Poe"), (6, noon, loginRequest 2),
        (5, noon, sendMessage 1 2 "hi"), (5, noon, sendMessage 3 2 "yo"),
        (6, noon, markRead 2 1), (6, noon, markRead 2 3)]) 2
      = some "2024-01-05 09:03:07, 1, hi, 0\n2024-01-05 09:03:07, 3, yo, 1\n".toList := by
  decide

/-! ## RemoveContact -/

/-- C5, the code at the failing input: user 1 holds the contacts 3 and 5 and
removes 3.  The first `getline` is given the null `&lines[0]` and returns -1,
no line is read, and the file reopened for writing stays empty: contact 5 is
gone as well, and the success confirmation is sent.  Removing the absent
contact 9 empties the file in the same way. -/
theorem removeContact_empties_file :
    contactsAfter (serve start [(5, noon, registrationRequest 1 "ann,555,Ann,Lee"),
        (5, noon, addContact 1 3 "Cy" "Poe" "557"),
        (5, noon, addContact 1 5 "Dee" "Fox" "558")]) 1
      = some "3,Cy,Poe,557\n5,Dee,Fox,558\n".toList ∧
    contactsAfter (serve start [(5, noon, registrationRequest 1 "ann,555,Ann,Lee"),
        (5, noon, addContact 1 3 "Cy" "Poe" "557"),
        (5, noon, addContact 1 5 "Dee" "Fox" "558"), (5, noon, removeContact 1 3)]) 1
      = some [] ∧
    contactsAfter (serve start [(5, noon, registrationRequest 1 "ann,555,Ann,Lee"),
        (5, noon, addContact 1 3 "Cy" "Poe" "557"),
        (5, noon, addContact 1 5 "Dee" "Fox" "558"), (5, noon, removeContact 1 9)]) 1
      = some [] ∧
    (sentAfter (serve start [(5, noon, registrationRequest 1 "ann,555,Ann,Lee"),
        (5, noon, addContact 1 3 "Cy" "Poe" "557"),
        (5, noon, addContact 1 5 "Dee" "Fox" "558"), (5, noon, removeContact 1 3)])).map
        (fun l => l.getLast?)
      = some (some (5, ⟨3, Body.text "User deleted from contact list".toList, none, none⟩)) := by
  decide

/-! ## Disconnect -/

/-- C8 (amended): identity `i` below `MAX_USERS` is registered in the registry
on connection `c`.  When the thread of `c` processes a Disconnect record or a
failed read, it closes `c` and ends, and the registry is left as it was: the
lookup of `i` still yields `c`. -/
theorem disconnect_keeps_registry (w : World) (tm : Tm) (c i : Int) (received : Option Received)
    (hi : 0 ≤ i ∧ i < MAX_USERS) (hreg : w.clients i.toNat = c)
    (hrec : received = none ∨ ∃ r, received = some r ∧ r.type = -1) :
    ∃ w1, handleClient w tm c received = Except.ok (w1, false) ∧
      w1.live c = false ∧ w1.clients = w.clients ∧ findSocketByUserId i w1.clients = c := by
  have hfind : findSocketByUserId i w.clients = c := by
    have h1 : ¬ (i < 0 ∨ i ≥ MAX_USERS) := by
      have := hi.1; have := hi.2; omega
    simp [findSocketByUserId, h1, hreg]
  rcases hrec with h | ⟨r, h, ht⟩
  · subst h
    exact ⟨disconnectClient w c 0, rfl, by simp [disconnectClient], rfl, hfind⟩
  · subst h
    exact ⟨disconnectClient w c r.fromId, by simp [handleClient, ht],
      by simp [disconnectClient], rfl, hfind⟩

/-- Witness of C8 (amended): user 2 of `twoUsers`, logged in on descriptor 6,
sends a Disconnect record. -/
theorem disconnect_keeps_registry_witness :
    ∃ w1, handleClient twoUsers noon 6 (some ⟨-1, [], noUser, -1, 2⟩) = Except.ok (w1, false) ∧
      w1.live 6 = false ∧ w1.clients = twoUsers.clients ∧ findSocketByUserId 2 w1.clients = 6 :=
  disconnect_keeps_registry twoUsers noon 6 2 (some ⟨-1, [], noUser, -1, 2⟩) (by decide)
    (by decide) (Or.inr ⟨_, rfl, rfl⟩)

/-- C8 fails as stated.  Identity 7 registers and logs in on descriptor 5; after
its Disconnect record, and as well after a failed read, the lookup of 7 still
yields 5 and not -1. -/
theorem registry_entry_survives_disconnect :
    lookupAfter (serve start [(5, noon, registrationRequest 7 "bob,555,Bob,Smith"),
        (5, noon, loginRequest 7), (5, noon, some ⟨-1, [], noUser, -1, 7⟩)]) 7 = some 5 ∧
    lookupAfter (serve start [(5, noon, registrationRequest 7 "bob,555,Bob,Smith"),
        (5, noon, loginRequest 7), (5, noon, none)]) 7 = some 5 := by
  decide

/-! ## Store files that cannot be opened -/

/-- C9 (amended): when the contact list of the requester cannot be opened for
reading, a ListContacts (type 4) or AddContact (type 5) request is answered by
exactly one record, the Confirmation "Error occured in server" (so spelled),
and no store is changed. -/
theorem contact_list_unreadable_reported (w : World) (tm : Tm) (sock owner : Int)
    (r : Received) (hty : r.type = 4 ∨ r.type = 5) (hfrom : r.fromId = owner)
    (hfile : w.readContactList owner = none) :
    ∃ w1, handleClient w tm sock (some r) = Except.ok (w1, true) ∧
      w1.sent = w.sent ++
        [(sock, ⟨3, Body.text "Error occured in server".toList, none, none⟩)] ∧
      w1.dirs = w.dirs ∧ w1.user_list = w.user_list := by
  refine ⟨sendConfirmationMessage w sock "Error occured in server".toList, ?_, rfl, rfl, rfl⟩
  rcases hty with h | h
  · simp [handleClient, h, sendContactList, hfrom, hfile, Except.map]
  · simp [handleClient, h, addUserToContactList, hfrom, hfile, Except.map]

/-- Witness of C9 (amended): identity 4 has no directory in `twoUsers` and
asks for its contact list. -/
theorem contact_list_unreadable_reported_witness :
    ∃ w1, handleClient twoUsers noon 5 (listContacts 4) = Except.ok (w1, true) ∧
      w1.sent = twoUsers.sent ++
        [(5, ⟨3, Body.text "Error occured in server".toList, none, none⟩)] ∧
      w1.dirs = twoUsers.dirs ∧ w1.user_list = twoUsers.user_list :=
  contact_list_unreadable_reported twoUsers noon 5 4 ⟨4, [], noUser, -1, 4⟩ (Or.inl rfl) rfl rfl

/-- C9 fails as stated.  Identity 4 has no directory, so none of its store
files can be opened.  Its ListContacts request is answered with the body
"Error occured in server", which is not the body of the claim; its
RemoveContact and CheckUnread requests get no record at all; its MarkRead
request is answered "Messages read"; and its SendMessage to the logged-in user
2, whose copy for the sender cannot be stored, is answered "Message sent". -/
theorem store_failure_replies :
    sentAfter (serve twoUsers [(5, noon, listContacts 4)])
      = some [(5, ⟨3, Body.text "Error occured in server".toList, none, none⟩)] ∧
    sentAfter (serve twoUsers [(5, noon, removeContact 4 1)]) = some [] ∧
    sentAfter (serve twoUsers [(5, noon, checkUnread 4)]) = some [] ∧
    sentAfter (serve twoUsers [(5, noon, markRead 4 1)])
      = some [(5, ⟨3, Body.text "Messages read".toList, none, none⟩)] ∧
    sentAfter (serve twoUsers [(5, noon, sendMessage 4 2 "hi")])
      = some [(6, ⟨7, Body.text "hi".toList, some 2, some 4⟩),
          (5, ⟨3, Body.text "Message sent".toList, none, none⟩)] ∧
    messagesAfter (serve twoUsers [(5, noon, sendMessage 4 2 "hi")]) 4 = none := by
  decide

/-! ## MarkRead: the records resent -/

theorem markedRow_wf (p : Int) (m : MessageData) (h : m.wf) :
    markedRow p m = ⟨m.date, m.fromUserId, m.messageText, if m.fromUserId = p then 1 else 0⟩ := by
  simp [markedRow, dropWhile_isspace_of_head _ h.2]

/-- C10: the messages file of `owner` holds well-formed rows.  A MarkRead
request with from `owner` and to `p` sends the requester, in the order of the
file, one type-9 record for each row whose peer is `p`, whatever its read
status was, carrying the date, the peer and the text of the row with read
status 1, `to` the owner and `from` the peer `p`; it sends no other type-9
record; and it ends with the Confirmation "Messages read". -/
theorem markRead_resends_peer_rows (w : World) (tm : Tm) (sock owner p : Int) (body : List Char)
    (u : User) (cl : Option (List Char)) (rows : List MessageData)
    (hfile : w.dirs owner = some ⟨cl, some (messagesFile rows)⟩) (hwf : ∀ m ∈ rows, m.wf) :
    ∃ w1, handleClient w tm sock (some ⟨9, body, u, p, owner⟩) = Except.ok (w1, true) ∧
      w1.sent = w.sent ++
        (rows.filter (fun m => m.fromUserId = p)).map (fun m =>
          (sock, ⟨9, Body.text (fmtRow m.date p m.messageText 1), some owner, some p⟩)) ++
        [(sock, ⟨3, Body.text "Messages read".toList, none, none⟩)] := by
  refine ⟨_, markRead_step w tm sock owner p body u cl rows hfile (fun m hm => (hwf m hm).1), ?_⟩
  rw [confirm_sent, resendMessages_sent, setDir_sent]
  congr 2
  rw [List.filter_map, List.map_map]
  have hfilter : rows.filter ((fun m => decide (m.fromUserId = p)) ∘ markedRow p)
      = rows.filter (fun m => decide (m.fromUserId = p)) := by
    congr 1
  rw [hfilter]
  apply List.map_congr_left
  intro m hm
  have hp : m.fromUserId = p := by
    have := (List.mem_filter.1 hm).2
    simpa using this
  have hm' := hwf m (List.mem_filter.1 hm).1
  simp [readRecord, markedRow_wf p m hm', hp]

/-- Witness of C10: in `inbox`, user 2 marks the messages of peer 1 as read;
the read row "hi" and the unread row "ok" are resent, the row of peer 3 is not. -/
theorem markRead_resends_peer_rows_witness :
    ∃ w1, handleClient inbox noon 6 (markRead 2 1) = Except.ok (w1, true) ∧
      w1.sent =
        [(6, ⟨9, Body.text "2024-01-05 09:03:07, 1, hi, 1\n".toList, some 2, some 1⟩),
         (6, ⟨9, Body.text "2024-01-05 09:03:09, 1, ok, 1\n".toList, some 2, some 1⟩),
         (6, ⟨3, Body.text "Messages read".toList, none, none⟩)] :=
  markRead_resends_peer_rows inbox noon 6 2 1 [] noUser (some [])
    [⟨"2024-01-05 09:03:07".toList, 1, "hi".toList, 1⟩,
     ⟨"2024-01-05 09:03:08".toList, 3, "yo".toList, 0⟩,
     ⟨"2024-01-05 09:03:09".toList, 1, "ok".toList, 0⟩] (by decide) (by decide)

/-! ## ListContacts -/

theorem listable_oneLine (u : User) (h : u.listable) : u.oneLine :=
  ⟨h.2.2.1, h.2.2.2.2.2.2.1, h.2.2.2.2.2.2.2.2.2.1⟩

theorem scanf_contact_line (u : User) (h : u.listable) (rest : List Char) :
    scanf contactFormat (fmtContact u.userId u.name u.surname u.phoneNumber ++ rest) []
      = ⟨some 4, [Value.int u.userId, Value.str u.name, Value.str u.surname,
          Value.str u.phoneNumber], rest.dropWhile isspace⟩ := by
  obtain ⟨n1, n2, -, -, s1, s2, -, -, p1, p2, -⟩ := h
  have e : fmtContact u.userId u.name u.surname u.phoneNumber ++ rest
      = printInt u.userId ++ ',' :: (u.name ++ ',' :: (u.surname ++ ',' :: (u.phoneNumber
          ++ '\n' :: rest))) := by
    simp [fmtContact]
  rw [e, contactFormat, scanf_int _ _ _ _ (by simp), scanf_char,
    scanf_notChar _ _ _ _ _ n1 n2, scanf_char, scanf_notChar _ _ _ _ _ s1 s2, scanf_char,
    scanf_notChar _ _ _ _ _ p1 p2, scanf_space, dropWhile_isspace_newline, scanf_nil]
  rfl

theorem readContacts_contacts (cs : List User) (hwf : ∀ u ∈ cs, u.listable) :
    ∀ (room : Nat) (acc : List UserSlot), cs.length ≤ room →
      readContacts room (contactsFile cs) acc
        = Except.ok (acc ++ cs.map (fun u =>
            ⟨some u.userId, none, some u.phoneNumber, some u.name, some u.surname⟩)) := by
  induction cs with
  | nil =>
    intro room acc _
    cases room with
    | zero => simp [readContacts]
    | succ r => simp [readContacts, contactsFile, contactFormat, scanf, scanInt, Scan.inputFailure]
  | cons u cs ih =>
    intro room acc hroom
    cases room with
    | zero => simp at hroom
    | succ r =>
      have hu := hwf u (by simp)
      obtain ⟨-, -, -, n4, -, -, -, s4, -, -, p4⟩ := hu
      rw [contactsFile_cons]
      simp only [readContacts, scanf_contact_line u (hwf u (by simp)),
        dropWhile_isspace_contactsFile]
      have hfit : fitsBuffers REGISTRATION_BUFFER_SIZE [Value.int u.userId, Value.str u.name,
          Value.str u.surname, Value.str u.phoneNumber] = true := by
        simp [fitsBuffers, n4, s4, p4]
      simp only [hfit, if_true]
      rw [ih (fun x hx => hwf x (by simp [hx])) r _ (by simpa using hroom)]
      simp [slotOf]

theorem sendUsers_sent (sock : Int) (n : Int) (us : List UserSlot) :
    ∀ w : World, w.live sock = true →
      (sendUsers sock n w us).sent
        = w.sent ++ us.map (fun s => (sock, ⟨4, Body.user s, some n, some (-1)⟩)) := by
  induction us with
  | nil => intro w _; simp [sendUsers]
  | cons s us ih =>
    intro w hl
    simp only [sendUsers, send_ok, hl, if_true]
    rw [ih _ (by rw [send_live]; exact hl)]
    simp

theorem addContact_step (w : World) (tm : Tm) (sock owner t : Int) (body : List Char)
    (ms : Option (List Char)) (cs : List User) (u : User)
    (hd : w.dirs owner = some ⟨some (contactsFile cs), ms⟩) (hwf : ∀ c ∈ cs, c.oneLine)
    (hnew : ∀ c ∈ cs, c.userId ≠ u.userId) :
    handleClient w tm sock (some ⟨5, body, u, t, owner⟩)
      = Except.ok (sendConfirmationMessage
          (w.setDir owner ⟨some (contactsFile (cs ++ [u])), ms⟩) sock
          "User added to contact list".toList, true) := by
  have hfile1 : contactsFile cs ++ fmtContact u.userId u.name u.surname u.phoneNumber
      = contactsFile (cs ++ [u]) := by
    rw [contactsFile_append]; simp [contactsFile]
  have hscan := scanForId_contacts u.userId cs hwf ((contactsFile cs).length + 1) (by omega) none
  rw [any_userId_false _ _ hnew] at hscan
  simp [handleClient, addUserToContactList, World.readContactList, World.writeContactList, hd,
    hscan, hfile1, Except.map]

theorem serve_adds (tm : Tm) (sock owner : Int) (ms : Option (List Char)) (us : List User)
    (hwf : ∀ u ∈ us, u.oneLine) (hdis : us.Pairwise (fun x y => x.userId ≠ y.userId)) :
    ∀ (w : World) (cs : List User), w.dirs owner = some ⟨some (contactsFile cs), ms⟩ →
      (∀ c ∈ cs, c.oneLine) → (∀ c ∈ cs, ∀ u ∈ us, c.userId ≠ u.userId) →
      w.live sock = true →
      ∃ w1, serve w (us.map (fun u => (sock, tm, some ⟨5, [], u, -1, owner⟩))) = Except.ok w1 ∧
        w1.dirs owner = some ⟨some (contactsFile (cs ++ us)), ms⟩ ∧ w1.live sock = true := by
  induction us with
  | nil =>
    intro w cs hd _ _ hl
    exact ⟨w, rfl, by simpa using hd, hl⟩
  | cons u us ih =>
    intro w cs hd hcs hnew hl
    have hstep := addContact_step w tm sock owner (-1) [] ms cs u hd hcs
      (fun c hc => hnew c hc u (by simp))
    have hdis2 := List.pairwise_cons.1 hdis
    obtain ⟨w1, h1, h2, h3⟩ := ih (fun x hx => hwf x (by simp [hx])) hdis2.2
      (sendConfirmationMessage (w.setDir owner ⟨some (contactsFile (cs ++ [u])), ms⟩) sock
        "User added to contact list".toList) (cs ++ [u]) (by simp)
      (by
        intro c hc
        rcases List.mem_append.1 hc with h | h
        · exact hcs c h
        · have : c = u := by simpa using h
          rw [this]; exact hwf u (by simp))
      (by
        intro c hc x hx
        rcases List.mem_append.1 hc with h | h
        · exact hnew c h x (by simp [hx])
        · have : c = u := by simpa using h
          rw [this]; exact hdis2.1 x hx)
      (by simpa [sendConfirmationMessage, send, World.setDir] using hl)
    refine ⟨w1, ?_, by simpa using h2, h3⟩
    simp only [List.map_cons, serve, hstep]
    exact h1

/-! ## ListContacts after AddContact requests -/

/-- C6 (amended): `owner` has an empty contact list and a live connection.
After AddContact requests for at most `MAX_USERS` contacts of pairwise distinct
identities, each with a non-empty name, surname and phone that fit their
16-byte arrays and have no newline (and no comma in name and surname),
ListContacts sends exactly one type-4 record per contact, in insertion order,
carrying the identity, name, surname and phone of that contact; for no contact
at all it sends the Confirmation "Contact list is empty". -/
theorem listContacts_after_adds (w : World) (tm : Tm) (sock owner : Int)
    (ms : Option (List Char)) (us : List User) (hd : w.dirs owner = some ⟨some [], ms⟩)
    (hlive : w.live sock = true) (hwf : ∀ u ∈ us, u.listable)
    (hdis : us.Pairwise (fun x y => x.userId ≠ y.userId))
    (hlen : us.length ≤ MAX_USERS.toNat) :
    ∃ w1 w2,
      serve w (us.map (fun u => (sock, tm, some ⟨5, [], u, -1, owner⟩))) = Except.ok w1 ∧
      handleClient w1 tm sock (listContacts owner) = Except.ok (w2, true) ∧
      w2.sent = w1.sent ++
        (if us = [] then [(sock, ⟨3, Body.text "Contact list is empty".toList, none, none⟩)]
         else us.map (fun u => (sock, contactRecord us.length u))) := by
  obtain ⟨w1, h1, h2, h3⟩ := serve_adds tm sock owner ms us
    (fun u hu => listable_oneLine u (hwf u hu)) hdis w [] hd (by simp) (by simp) hlive
  rw [List.nil_append] at h2
  have hread := readContacts_contacts us hwf MAX_USERS.toNat [] hlen
  rw [List.nil_append] at hread
  by_cases hnil : us = []
  · subst hnil
    refine ⟨w1, sendConfirmationMessage w1 sock "Contact list is empty".toList, h1, ?_, by simp⟩
    simp [listContacts, handleClient, sendContactList, World.readContactList, h2, hread,
      Except.map]
  · refine ⟨w1, sendUsers sock us.length w1 (us.map (fun u =>
        ⟨some u.userId, none, some u.phoneNumber, some u.name, some u.surname⟩)), h1, ?_, ?_⟩
    · simp [listContacts, handleClient, sendContactList, World.readContactList, h2, hread,
        Except.map, hnil]
    · rw [sendUsers_sent _ _ _ _ h3]
      simp [hnil, contactRecord]

/-- Witness of C6 (amended): user 1 of `twoUsers` adds the contacts 3 and 5
and lists them. -/
theorem listContacts_after_adds_witness :
    ∃ w1 w2,
      serve twoUsers [(5, noon, addContact 1 3 "Cy" "Poe" "557"),
          (5, noon, addContact 1 5 "Dee" "Fox" "558")] = Except.ok w1 ∧
      handleClient w1 noon 5 (listContacts 1) = Except.ok (w2, true) ∧
      w2.sent = w1.sent ++
        [(5, ⟨4, Body.user ⟨some 3, none, some "557".toList, some "Cy".toList,
            some "Poe".toList⟩, some 2, some (-1)⟩),
         (5, ⟨4, Body.user ⟨some 5, none, some "558".toList, some "Dee".toList,
            some "Fox".toList⟩, some 2, some (-1)⟩)] :=
  listContacts_after_adds twoUsers noon 5 1 (some [])
    [⟨3, [], "557".toList, "Cy".toList, "Poe".toList⟩,
     ⟨5, [], "558".toList, "Dee".toList, "Fox".toList⟩] rfl (by decide) (by decide)
    (by decide) (by decide)

/-- C6 fails as stated.  User 1 adds eleven contacts of distinct identities
and lists them: the reading loop breaks at `MAX_USERS`, ten type-4 records are
sent, and contact 21 is left out.  A single contact with an empty name is read
back as ten elements of `users`, the first with the identity only.  And when
the first `send` fails, the sending loop returns after one record. -/
theorem listContacts_stops_at_max_users :
    contactsAfter (serve twoUsers [(5, noon, addContact 1 11 "A" "Z" "1"),
        (5, noon, addContact 1 12 "B" "Z" "1"), (5, noon, addContact 1 13 "C" "Z" "1"),
        (5, noon, addContact 1 14 "D" "Z" "1"), (5, noon, addContact 1 15 "E" "Z" "1"),
        (5, noon, addContact 1 16 "F" "Z" "1"), (5, noon, addContact 1 17 "G" "Z" "1"),
        (5, noon, addContact 1 18 "H" "Z" "1"), (5, noon, addContact 1 19 "I" "Z" "1"),
        (5, noon, addContact 1 20 "J" "Z" "1"), (5, noon, addContact 1 21 "K" "Z" "1")]) 1
      = some ("11,A,Z,1\n12,B,Z,1\n13,C,Z,1\n14,D,Z,1\n15,E,Z,1\n16,F,Z,1\n".toList
          ++ "17,G,Z,1\n18,H,Z,1\n19,I,Z,1\n20,J,Z,1\n21,K,Z,1\n".toList) ∧
    (sentAfter (serve twoUsers [(5, noon, addContact 1 11 "A" "Z" "1"),
        (5, noon, addContact 1 12 "B" "Z" "1"), (5, noon, addContact 1 13 "C" "Z" "1"),
        (5, noon, addContact 1 14 "D" "Z" "1"), (5, noon, addContact 1 15 "E" "Z" "1"),
        (5, noon, addContact 1 16 "F" "Z" "1"), (5, noon, addContact 1 17 "G" "Z" "1"),
        (5, noon, addContact 1 18 "H" "Z" "1"), (5, noon, addContact 1 19 "I" "Z" "1"),
        (5, noon, addContact 1 20 "J" "Z" "1"), (5, noon, addContact 1 21 "K" "Z" "1"),
        (5, noon, listContacts 1)])).map
        (fun l => (l.filter (fun r => r.2.type = 4)).map
          (fun r => match r.2.body with
            | Body.user slot => slot.userId
            | _ => none))
      = some [some 11, some 12, some 13, some 14, some 15, some 16, some 17, some 18, some 19,
          some 20] ∧
    (sentAfter (serve twoUsers [(5, noon, addContact 1 3 "" "Poe" "557"),
        (5, noon, listContacts 1)])).map
        (fun l => (l.filter (fun r => r.2.type = 4)).map
          (fun r => match r.2.body with
            | Body.user slot => (slot.userId, slot.name)
            | _ => (none, none)))
      = some [(some 3, none), (none, none), (none, none), (none, none), (none, none),
          (none, none), (none, none), (none, none), (none, none), (none, none)] ∧
    (sentAfter (serve twoUsers [(5, noon, addContact 1 3 "Cy" "Poe" "557"),
        (5, noon, addContact 1 5 "Dee" "Fox" "558"), (9, noon, listContacts 1)])).map
        (fun l => (l.filter (fun r => r.2.type = 4)).map
          (fun r => match r.2.body with
            | Body.user slot => slot.userId
            | _ => none))
      = some [some 3] := by
  decide

/-! ## Registration and login -/

theorem dropWhile_delim_head (delim : Char) (s rest : List Char) (hne : s ≠ [])
    (hs : delim ∉ s) : (s ++ rest).dropWhile (fun x => x == delim) = s ++ rest := by
  cases s with
  | nil => exact absurd rfl hne
  | cons c cs =>
    have hc : c ≠ delim := fun e => hs (by simp [e])
    simp [List.dropWhile_cons, hc]

theorem strtok_field (delim : Char) (s rest : List Char) (hne : s ≠ []) (hs : delim ∉ s) :
    strtok delim (s ++ delim :: rest) = some (s, rest) := by
  have h0 := dropWhile_delim_head delim s (delim :: rest) hne hs
  have h1 := takeWhile_stop delim s rest hs
  have h2 := dropWhile_stop delim s rest hs
  unfold strtok
  rw [h0]
  cases hsr : s ++ delim :: rest with
  | nil => simp at hsr
  | cons c cs =>
    rw [hsr] at h1 h2
    simp only [h1, h2, List.drop_succ_cons, List.drop_zero]

theorem strtok_last (delim : Char) (s : List Char) (hne : s ≠ []) (hs : delim ∉ s) :
    strtok delim s = some (s, []) := by
  have h0 := dropWhile_delim_head delim s [] hne hs
  rw [List.append_nil] at h0
  have h1 : s.takeWhile (fun x => x != delim) = s := by
    rw [List.takeWhile_eq_self_iff]
    intro x hx
    simp only [bne_iff_ne, ne_eq]
    exact fun e => hs (e ▸ hx)
  have h2 : s.dropWhile (fun x => x != delim) = [] := by
    rw [List.dropWhile_eq_nil_iff]
    intro x hx
    simp only [bne_iff_ne, ne_eq]
    exact fun e => hs (e ▸ hx)
  unfold strtok
  rw [h0]
  cases hsr : s with
  | nil => exact absurd hsr hne
  | cons c cs =>
    rw [hsr] at h1 h2
    simp only [h1, h2, List.drop_nil]

theorem usersFile_cons (p : User) (ps : List User) :
    usersFile (p :: ps)
      = fmtUser p.userId p.username p.phoneNumber p.name p.surname ++ usersFile ps := by
  simp [usersFile]

theorem usersFile_append (p1 p2 : List User) :
    usersFile (p1 ++ p2) = usersFile p1 ++ usersFile p2 := by
  simp [usersFile]

theorem fmtUser_ne_nil (i : Int) (a b c d : List Char) : fmtUser i a b c d ≠ [] := by
  simp [fmtUser]

theorem dropWhile_isspace_usersFile (ps : List User) :
    (usersFile ps).dropWhile isspace = usersFile ps := by
  cases ps with
  | nil => rfl
  | cons p ps =>
    rw [usersFile_cons]
    simp only [fmtUser, List.append_assoc]
    exact dropWhile_isspace_printInt _ _

theorem scanf_user_line (p : User) (h : p.profile) (rest : List Char) :
    scanf userListFormat (fmtUser p.userId p.username p.phoneNumber p.name p.surname ++ rest) []
      = ⟨some 5, [Value.int p.userId, Value.str p.username, Value.str p.phoneNumber,
          Value.str p.name, Value.str p.surname], rest.dropWhile isspace⟩ := by
  obtain ⟨⟨a1, a2, -, -⟩, ⟨b1, b2, -, -⟩, ⟨c1, c2, -, -⟩, ⟨d1, -, d3, -⟩⟩ := h
  have e : fmtUser p.userId p.username p.phoneNumber p.name p.surname ++ rest
      = printInt p.userId ++ ',' :: (p.username ++ ',' :: (p.phoneNumber ++ ',' :: (p.name
          ++ ',' :: (p.surname ++ '\n' :: rest)))) := by
    simp [fmtUser]
  rw [e, userListFormat, scanf_int _ _ _ _ (by simp), scanf_char,
    scanf_notChar _ _ _ _ _ a1 a2, scanf_char, scanf_notChar _ _ _ _ _ b1 b2, scanf_char,
    scanf_notChar _ _ _ _ _ c1 c2, scanf_char, scanf_notChar _ _ _ _ _ d1 d3, scanf_space,
    dropWhile_isspace_newline, scanf_nil]
  rfl

theorem scanForId_users (i : Int) (ps : List User) (hwf : ∀ p ∈ ps, p.profile)
    (fuel : Nat) (hf : (usersFile ps).length < fuel) (id : Option Int) :
    scanForId userListFormat 1024 i fuel (usersFile ps) id
      = Except.ok (ps.any (fun p => decide (p.userId = i))) := by
  induction ps generalizing fuel id with
  | nil =>
    cases fuel with
    | zero => simp at hf
    | succ f => rfl
  | cons p ps ih =>
    cases fuel with
    | zero => simp at hf
    | succ f =>
      have hp : p.profile := hwf p (by simp)
      rw [usersFile_cons] at hf ⊢
      have hl := fmtUser_ne_nil p.userId p.username p.phoneNumber p.name p.surname
      have hpos : 0 < (fmtUser p.userId p.username p.phoneNumber p.name p.surname).length :=
        List.length_pos.2 hl
      have hf2 : (usersFile ps).length < f := by simp at hf; omega
      have ih2 := ih (fun x hx => hwf x (by simp [hx])) f hf2 (some p.userId)
      have hfit : fitsBuffers 1024 [Value.int p.userId, Value.str p.username,
          Value.str p.phoneNumber, Value.str p.name, Value.str p.surname] = true := by
        simp [fitsBuffers, hp.1.2.2.2, hp.2.1.2.2.2, hp.2.2.1.2.2.2, hp.2.2.2.2.2.2]
      simp only [scanForId, scanf_user_line p hp, dropWhile_isspace_usersFile, hfit, if_true]
      by_cases hc : p.userId = i
      · simp [hc]
      · simp [hc, ih2, hl]

theorem printInt_digit_length (i : Int) (h : 0 ≤ i ∧ i < MAX_USERS) : (printInt i).length = 1 := by
  cases i with
  | ofNat n =>
    have h2 : (n : Int) < 10 := h.2
    have hn : n < 10 := by omega
    simp [printInt, printNat_small n hn]
  | negSucc n => exact absurd h.1 (by simp [Int.negSucc_lt_zero])

theorem isUserRegistered_of_file (w : World) (i : Int) (ps : List User)
    (hfile : w.user_list.getD [] = usersFile ps) (hps : ∀ q ∈ ps, q.profile) :
    isUserRegistered w i = Except.ok (ps.any (fun p => decide (p.userId = i))) := by
  cases hu : w.user_list with
  | none =>
    rw [hu] at hfile
    have hnil : ps = [] := by
      cases ps with
      | nil => rfl
      | cons p ps =>
        rw [usersFile_cons] at hfile
        have := fmtUser_ne_nil p.userId p.username p.phoneNumber p.name p.surname
        simp only [Option.getD_none] at hfile
        exact absurd (List.append_eq_nil.1 hfile.symm).1 this
    simp [isUserRegistered, hu, hnil]
  | some file =>
    rw [hu] at hfile
    simp only [Option.getD_some] at hfile
    simp only [isUserRegistered, hu, hfile]
    exact scanForId_users i ps hps _ (by omega) none

theorem login_step (w : World) (tm : Tm) (sock i : Int) (ps : List User)
    (hi : 0 ≤ i ∧ i < MAX_USERS) (hfile : w.user_list.getD [] = usersFile ps)
    (hps : ∀ q ∈ ps, q.profile) :
    ∃ w1, handleClient w tm sock (loginRequest i) = Except.ok (w1, true) ∧
      w1.sent = w.sent ++ [(sock,
        if ps.any (fun p => decide (p.userId = i)) then
          ⟨3, Body.text "logged in".toList, none, none⟩
        else ⟨2, Body.unset, none, none⟩)] ∧
      w1.user_list = w.user_list ∧ w1.dirs = w.dirs ∧ w1.clients i.toNat = sock := by
  have hreg := isUserRegistered_of_file
    { w with clients := fun k => if k = i.toNat then sock else w.clients k } i ps hfile hps
  by_cases hany : ps.any (fun p => decide (p.userId = i)) = true
  · rw [hany] at hreg
    refine ⟨sendConfirmationMessage
      { w with clients := fun k => if k = i.toNat then sock else w.clients k } sock
      "logged in".toList, ?_, by simp [hany], rfl, rfl, by simp [sendConfirmationMessage, send]⟩
    simp [loginRequest, handleClient, handleLoginRequest, hi, hreg, Except.map]
  · have hany' : ps.any (fun p => decide (p.userId = i)) = false := by simpa using hany
    rw [hany'] at hreg
    refine ⟨(send { w with clients := fun k => if k = i.toNat then sock else w.clients k } sock
      ⟨2, Body.unset, none, none⟩).1, ?_, by simp [hany'], rfl, rfl, by simp [send]⟩
    simp [loginRequest, handleClient, handleLoginRequest, hi, hreg, Except.map]

theorem register_step (w : World) (tm : Tm) (sock i t : Int) (u : User) (ps : List User)
    (username phoneNumber name surname : List Char)
    (hi : 0 ≤ i ∧ i < MAX_USERS) (hfile : w.user_list.getD [] = usersFile ps)
    (hdir : w.dirs i = none) (h1 : isField username) (h2 : isField phoneNumber)
    (h3 : isField name) (h4 : isField surname) :
    ∃ w1, handleClient w tm sock
        (some ⟨2, registrationBody username phoneNumber name surname, u, t, i⟩)
        = Except.ok (w1, true) ∧
      w1.sent = w.sent ++ [(sock, ⟨3, Body.text "registered".toList, none, none⟩)] ∧
      w1.user_list = some (usersFile (ps ++ [⟨i, username, phoneNumber, name, surname⟩])) ∧
      w1.dirs i = some ⟨some [], some []⟩ := by
  have hlen := printInt_digit_length i hi
  have e : registrationBody username phoneNumber name surname
      = username ++ ',' :: (phoneNumber ++ ',' :: (name ++ ',' :: surname)) := by
    simp [registrationBody]
  refine ⟨sendConfirmationMessage (World.setDir
      { w with user_list := some (w.user_list.getD [] ++
          fmtUser i username phoneNumber name surname) } i ⟨some [], some []⟩) sock
      "registered".toList, ?_, rfl, ?_, by simp⟩
  · simp only [handleClient, handleRegistrationRequest, e, strtok_field _ _ _ h1.1 h1.2.1,
      strtok_field _ _ _ h2.1 h2.2.1, strtok_field _ _ _ h3.1 h3.2.1,
      strtok_last _ _ h4.1 h4.2.1, hlen, hdir]
    simp [Except.map]
  · simp [sendConfirmationMessage, send, World.setDir, hfile, usersFile_append, usersFile]

theorem listContacts_empty_step (w : World) (tm : Tm) (sock i : Int)
    (ms : Option (List Char)) (hd : w.dirs i = some ⟨some [], ms⟩) :
    handleClient w tm sock (listContacts i)
      = Except.ok (sendConfirmationMessage w sock "Contact list is empty".toList, true) := by
  have hread := readContacts_contacts [] (by simp) MAX_USERS.toNat [] (by simp)
  simp only [contactsFile, List.flatMap_nil, List.map_nil, List.append_nil] at hread
  simp [listContacts, handleClient, sendContactList, World.readContactList, hd, hread,
    Except.map]

/-! ## The registration scenario -/

/-- C7 (amended): identity `i` below `MAX_USERS` has no profile in
`user_list.txt`, whose profiles are well-formed, and no directory.  A
LoginRequest of `i` is answered by exactly one type-2 record; a registration of
four non-empty fields without comma or newline by the Confirmation
"registered"; a second LoginRequest by "logged in"; and ListContacts by
"Contact list is empty". -/
theorem login_register_login_list (w : World) (tm : Tm) (sock i t : Int) (u : User)
    (ps : List User) (username phoneNumber name surname : List Char)
    (hi : 0 ≤ i ∧ i < MAX_USERS) (hfile : w.user_list.getD [] = usersFile ps)
    (hps : ∀ q ∈ ps, q.profile) (hnew : ∀ q ∈ ps, q.userId ≠ i) (hdir : w.dirs i = none)
    (h1 : isField username) (h2 : isField phoneNumber) (h3 : isField name)
    (h4 : isField surname) :
    ∃ w1 w2 w3 w4,
      handleClient w tm sock (loginRequest i) = Except.ok (w1, true) ∧
      w1.sent = w.sent ++ [(sock, ⟨2, Body.unset, none, none⟩)] ∧
      handleClient w1 tm sock
        (some ⟨2, registrationBody username phoneNumber name surname, u, t, i⟩)
        = Except.ok (w2, true) ∧
      w2.sent = w1.sent ++ [(sock, ⟨3, Body.text "registered".toList, none, none⟩)] ∧
      handleClient w2 tm sock (loginRequest i) = Except.ok (w3, true) ∧
      w3.sent = w2.sent ++ [(sock, ⟨3, Body.text "logged in".toList, none, none⟩)] ∧
      handleClient w3 tm sock (listContacts i) = Except.ok (w4, true) ∧
      w4.sent = w3.sent ++
        [(sock, ⟨3, Body.text "Contact list is empty".toList, none, none⟩)] := by
  obtain ⟨w1, a1, a2, a3, a4, -⟩ := login_step w tm sock i ps hi hfile hps
  rw [any_userId_false _ _ hnew] at a2
  obtain ⟨w2, b1, b2, b3, b4⟩ := register_step w1 tm sock i t u ps username phoneNumber name
    surname hi (by rw [a3]; exact hfile) (by rw [a4]; exact hdir) h1 h2 h3 h4
  have hps2 : ∀ q ∈ ps ++ [(⟨i, username, phoneNumber, name, surname⟩ : User)], q.profile := by
    intro q hq
    rcases List.mem_append.1 hq with h | h
    · exact hps q h
    · have : q = ⟨i, username, phoneNumber, name, surname⟩ := by simpa using h
      rw [this]; exact ⟨h1, h2, h3, h4⟩
  obtain ⟨w3, c1, c2, -, c4, -⟩ := login_step w2 tm sock i _ hi (by rw [b3]; rfl) hps2
  have hany : (ps ++ [(⟨i, username, phoneNumber, name, surname⟩ : User)]).any
      (fun p => decide (p.userId = i)) = true := by simp
  rw [hany] at c2
  have d1 := listContacts_empty_step w3 tm sock i (some []) (by rw [c4]; exact b4)
  exact ⟨w1, w2, w3, _, a1, by simpa using a2, b1, b2, c1, by simpa using c2, d1, rfl⟩

/-- Witness of C7 (amended): the scenario of the specification, identity 7
with the body "bob,555,Bob,Smith" on a fresh server. -/
theorem login_register_login_list_witness :
    ∃ w1 w2 w3 w4,
      handleClient start noon 5 (loginRequest 7) = Except.ok (w1, true) ∧
      w1.sent = [(5, ⟨2, Body.unset, none, none⟩)] ∧
      handleClient w1 noon 5 (registrationRequest 7 "bob,555,Bob,Smith") = Except.ok (w2, true) ∧
      w2.sent = w1.sent ++ [(5, ⟨3, Body.text "registered".toList, none, none⟩)] ∧
      handleClient w2 noon 5 (loginRequest 7) = Except.ok (w3, true) ∧
      w3.sent = w2.sent ++ [(5, ⟨3, Body.text "logged in".toList, none, none⟩)] ∧
      handleClient w3 noon 5 (listContacts 7) = Except.ok (w4, true) ∧
      w4.sent = w3.sent ++
        [(5, ⟨3, Body.text "Contact list is empty".toList, none, none⟩)] :=
  login_register_login_list start noon 5 7 (-1) noUser [] "bob".toList "555".toList
    "Bob".toList "Smith".toList (by decide) rfl (by decide) (by decide) rfl (by decide)
    (by decide) (by decide) (by decide)

/-- C7 fails as stated.  Identity 12 has no profile and no directory; its
LoginRequest makes `handleLoginRequest` store the descriptor in `clients[12]`,
outside the `MAX_USERS` elements of the array. -/
theorem login_outside_registry_undefined :
    faultOf (serve start [(5, noon, loginRequest 12)]) = some Fault.undefinedBehaviour ∧
    faultOf (serve start [(5, noon, loginRequest (-1))]) = some Fault.undefinedBehaviour := by
  decide

/-! ## The sender's own log -/

theorem sendMessage_delivered_eq (w : World) (tm : Tm) (sock a b : Int) (text : List Char)
    (u : User) (htm : tm.valid) (h1 : findSocketByUserId b w.clients ≠ -1)
    (h2 : w.live (findSocketByUserId b w.clients) = true) :
    handleClient w tm sock (some ⟨7, text, u, b, a⟩)
      = Except.ok (sendConfirmationMessage
          ((((((send w (findSocketByUserId b w.clients)
              ⟨7, Body.text (text.take 1023), some b, some a⟩).1.appendMessages a
                (fmtRow (fmtDate tm) b text 0)).getD
              (send w (findSocketByUserId b w.clients)
                ⟨7, Body.text (text.take 1023), some b, some a⟩).1).appendMessages b
                (fmtRow (fmtDate tm) a text 0))).getD
            (((send w (findSocketByUserId b w.clients)
              ⟨7, Body.text (text.take 1023), some b, some a⟩).1.appendMessages a
                (fmtRow (fmtDate tm) b text 0)).getD
              (send w (findSocketByUserId b w.clients)
                ⟨7, Body.text (text.take 1023), some b, some a⟩).1))
          sock "Message sent".toList, true) := by
  have hlen : (fmtDate tm).length < 50 := by have := fmtDate_length tm htm; omega
  simp [handleClient, processMessage, h1, h2, hlen, Except.map]

theorem sendMessage_step_sender (w : World) (tm : Tm) (sock a b : Int) (text : List Char)
    (u : User) (cl : Option (List Char)) (fa : List Char) (hab : a ≠ b)
    (hA : w.dirs a = some ⟨cl, some fa⟩) (htm : tm.valid)
    (h1 : findSocketByUserId b w.clients ≠ -1)
    (h2 : w.live (findSocketByUserId b w.clients) = true) :
    ∃ w1, handleClient w tm sock (some ⟨7, text, u, b, a⟩) = Except.ok (w1, true) ∧
      w1.clients = w.clients ∧ w1.live = w.live ∧
      w1.dirs a = some ⟨cl, some (fa ++ fmtRow (fmtDate tm) b text 0)⟩ := by
  have hba : b ≠ a := fun e => hab e.symm
  refine ⟨_, sendMessage_delivered_eq w tm sock a b text u htm h1 h2, ?_, ?_, ?_⟩
  · cases hB : w.dirs b <;>
      simp [World.appendMessages, hA, hB, hab, hba, World.setDir, sendConfirmationMessage, send]
  · cases hB : w.dirs b <;>
      simp [World.appendMessages, hA, hB, hab, hba, World.setDir, sendConfirmationMessage, send]
  · cases hB : w.dirs b <;>
      simp [World.appendMessages, hA, hB, hab, hba]

theorem serve_sends_sender (a b sock : Int) (u : User) (hab : a ≠ b)
    (msgs : List (Tm × List Char)) (htm : ∀ p ∈ msgs, p.1.valid) :
    ∀ (w : World) (cl : Option (List Char)) (fa : List Char),
      w.dirs a = some ⟨cl, some fa⟩ →
      findSocketByUserId b w.clients ≠ -1 → w.live (findSocketByUserId b w.clients) = true →
      ∃ w1, serve w (msgs.map (fun p => (sock, p.1, some ⟨7, p.2, u, b, a⟩))) = Except.ok w1 ∧
        w1.clients = w.clients ∧ w1.live = w.live ∧
        w1.dirs a = some ⟨cl, some (fa ++ messagesFile (msgs.map (sentRow b)))⟩ := by
  induction msgs with
  | nil =>
    intro w cl fa hA _ _
    exact ⟨w, rfl, rfl, rfl, by simp [messagesFile, hA]⟩
  | cons p ps ih =>
    intro w cl fa hA h1 h2
    obtain ⟨w1, hstep, hc, hl, hdA⟩ :=
      sendMessage_step_sender w p.1 sock a b p.2 u cl fa hab hA (htm p (by simp)) h1 h2
    obtain ⟨w2, hserve, hc2, hl2, hdA2⟩ :=
      ih (fun q hq => htm q (by simp [hq])) w1 cl _ hdA (by rw [hc]; exact h1)
        (by rw [hc, hl]; exact h2)
    refine ⟨w2, ?_, by rw [hc2, hc], by rw [hl2, hl], ?_⟩
    · simp only [List.map_cons, serve, hstep]
      exact hserve
    · rw [hdA2]
      simp [messagesFile_cons, sentRow]

/-- C14 (amended): `a` and `b` are distinct identities, `b` below `MAX_USERS`
and logged in (its registry slot holds a descriptor on which `send` succeeds)
and the messages file of `a` is empty.  After `k >= 1` SendMessage requests
from `a` to `b`, each text without comma or newline, holding a character that
is not white space, and with a line that fits the 256-byte read buffer,
CheckUnread for `a` sends one type-8 record whose body is exactly
"k Unread message from user b". -/
theorem sender_counts_own_messages (w : World) (a b sockA sockC : Int) (u : User)
    (cl : Option (List Char)) (msgs : List (Tm × List Char)) (tm1 : Tm)
    (hb : 0 ≤ b ∧ b < MAX_USERS) (hab : a ≠ b) (hA : w.dirs a = some ⟨cl, some []⟩)
    (hlogin : w.clients b.toNat ≠ -1 ∧ w.live (w.clients b.toNat) = true)
    (hn : msgs ≠ []) (hmsgs : ∀ p ∈ msgs, readableText b p) :
    ∃ w1 w2,
      serve w (msgs.map (fun p => (sockA, p.1, some ⟨7, p.2, u, b, a⟩))) = Except.ok w1 ∧
      handleClient w1 tm1 sockC (checkUnread a) = Except.ok (w2, true) ∧
      w2.sent = w1.sent ++
        [(sockC, ⟨8, Body.text (fmtUnread msgs.length b.toNat), some a, some (-1)⟩)] := by
  have hfind : findSocketByUserId b w.clients = w.clients b.toNat := by
    have h1 : ¬ (b < 0 ∨ b ≥ MAX_USERS) := by
      have := hb.1; have := hb.2; omega
    simp [findSocketByUserId, h1]
  have hbk : b.toNat < 10 := by
    have := hb.1; have h2 := hb.2
    simp only [MAX_USERS] at h2
    omega
  have hlen : 0 < msgs.length := List.length_pos.2 hn
  obtain ⟨w1, hserve, -, -, hd1⟩ := serve_sends_sender a b sockA u hab msgs
    (fun p hp => (hmsgs p hp).1) w cl [] hA (by rw [hfind]; exact hlogin.1)
    (by rw [hfind]; exact hlogin.2)
  rw [List.nil_append] at hd1
  have hread : ∀ m ∈ msgs.map (sentRow b), m.readable := by
    intro m hm
    obtain ⟨p, hp, rfl⟩ := List.mem_map.1 hm
    exact sentRow_readable b p (hmsgs p hp)
  have hrange : ∀ m ∈ msgs.map (sentRow b), m.readStatus = 0 →
      0 ≤ m.fromUserId ∧ m.fromUserId < MAX_USERS := by
    intro m hm _
    obtain ⟨p, -, rfl⟩ := List.mem_map.1 hm
    exact hb
  have hcount : unreadFrom (msgs.map (sentRow b))
      = fun i => if i = b.toNat then msgs.length else 0 := by
    funext i; exact unreadFrom_sent b msgs i
  have hstep1 := checkUnread_step w1 tm1 sockC a (-1) [] noUser cl _ hd1 hread hrange
  rw [hcount, unreadBody_single _ _ hbk hlen] at hstep1
  simp only [all_zero_single _ _ hbk hlen, Bool.false_eq_true, if_false] at hstep1
  exact ⟨w1, _, hserve, hstep1, rfl⟩

/-- Witness of C14 (amended): user 1 of `twoUsers` sends "hi" and "yo" to
user 2 and checks its own unread messages. -/
theorem sender_counts_own_messages_witness :
    ∃ w1 w2,
      serve twoUsers [(5, noon, sendMessage 1 2 "hi"), (5, noon, sendMessage 1 2 "yo")]
        = Except.ok w1 ∧
      handleClient w1 noon 5 (checkUnread 1) = Except.ok (w2, true) ∧
      w2.sent = w1.sent ++
        [(5, ⟨8, Body.text "2 Unread message from user 2\n".toList, some 1, some (-1)⟩)] :=
  sender_counts_own_messages twoUsers 1 2 5 5 noUser (some [])
    [(noon, "hi".toList), (noon, "yo".toList)] noon (by decide) (by decide) rfl (by decide)
    (by decide) (by decide)

set_option maxRecDepth 100000 in
/-- C14 fails as stated.  User 1 sends the logged-in user 2 a text of 240
letters: non-empty, without comma or newline.  `fgets` splits the line of the
sender's log after 255 characters, the first part ends inside the text, and
`sscanf` returns 3 without assigning `readStatus`, which CheckUnread for user 1
then tests.  The text " " leaves `readStatus` unassigned as well. -/
theorem checkUnread_long_text_undefined :
    (fgets 256 (fmtRow (fmtDate noon) 2 (List.replicate 240 'a') 0)).map
        (fun p => (p.1.length, p.2)) = some (255, "aaaaaaaaa, 0\n".toList) ∧
    ((fgets 256 (fmtRow (fmtDate noon) 2 (List.replicate 240 'a') 0)).map
        (fun p => (scanf rowFormat p.1 []).ret)) = some (some 3) ∧
    faultOf (serve twoUsers [(5, noon, some ⟨7, List.replicate 240 'a', noUser, 2, 1⟩),
        (5, noon, checkUnread 1)]) = some Fault.undefinedBehaviour ∧
    faultOf (serve twoUsers [(5, noon, sendMessage 1 2 " "), (5, noon, checkUnread 1)])
      = some Fault.undefinedBehaviour := by
  decide

/-! ## Round trip of a line of `messages.txt` -/

/-- C12 (amended): for every timestamp `processMessage` prints, every peer
identity, every read status, and every text that is non-empty, has no comma
or newline, does not begin with white space and gives a line of at most 255
characters, the reader of CheckUnread and MarkRead takes the printed line in
with one `fgets` and its `sscanf` assigns the same date, peer identity, text
and read status. -/
theorem row_round_trip (tm : Tm) (peer : Int) (text : List Char) (rs : Int) (rest : List Char)
    (htm : tm.valid) (h1 : text ≠ []) (h2 : ',' ∉ text) (h3 : '\n' ∉ text)
    (h4 : noSpaceHead text = true) (h5 : (fmtRow (fmtDate tm) peer text rs).length ≤ 255) :
    fgets 256 (fmtRow (fmtDate tm) peer text rs ++ rest)
      = some (fmtRow (fmtDate tm) peer text rs, rest) ∧
    sscanfRow (fmtRow (fmtDate tm) peer text rs)
      = Except.ok ⟨some (fmtDate tm), some peer, some text, some rs⟩ := by
  have hdrop := dropWhile_isspace_of_head text h4
  have hlen := fmtDate_length tm htm
  have hm : (⟨fmtDate tm, peer, text, rs⟩ : MessageData).readable :=
    ⟨fmtDate_ne_nil _, fmtDate_no _ _ (by decide) (by decide) (by decide) (by decide),
      fmtDate_no _ _ (by decide) (by decide) (by decide) (by decide), by simp only; omega,
      by simp only; rw [hdrop]; exact h1, h2, h3, h5⟩
  refine ⟨fgets_row _ hm rest, ?_⟩
  have h := sscanfRow_row _ hm
  simp only [hdrop] at h
  exact h

/-- Witness of C12 (amended): the row of peer 2 with the text "hi there". -/
theorem row_round_trip_witness :
    fgets 256 ("2024-01-05 09:03:07, 2, hi there, 1\n".toList ++ "next".toList)
      = some ("2024-01-05 09:03:07, 2, hi there, 1\n".toList, "next".toList) ∧
    sscanfRow "2024-01-05 09:03:07, 2, hi there, 1\n".toList
      = Except.ok ⟨some "2024-01-05 09:03:07".toList, some 2, some "hi there".toList, some 1⟩ :=
  row_round_trip noon 2 "hi there".toList 1 "next".toList (by decide) (by decide) (by decide)
    (by decide) (by decide) (by decide)

set_option maxRecDepth 100000 in
/-- C12 fails as stated.  For the empty text `sscanf` returns 2 and assigns
neither text nor read status; for "a,b" it returns 3 with the text "a"; for
"  hi" it assigns the text "hi"; for "a\nb" `fgets` ends the row after "a" and
leaves "b, 0" as a second row; and for a text of 300 letters `fgets` returns
the first 255 characters of the line and leaves the rest as a second row. -/
theorem row_round_trip_breaks :
    scanf rowFormat (fmtRow (fmtDate noon) 2 [] 0) []
      = ⟨some 2, [Value.str "2024-01-05 09:03:07".toList, Value.int 2], ", 0\n".toList⟩ ∧
    scanf rowFormat (fmtRow (fmtDate noon) 2 "a,b".toList 0) []
      = ⟨some 3, [Value.str "2024-01-05 09:03:07".toList, Value.int 2, Value.str "a".toList],
          "b, 0\n".toList⟩ ∧
    scanf rowFormat (fmtRow (fmtDate noon) 2 "  hi".toList 0) []
      = ⟨some 4, [Value.str "2024-01-05 09:03:07".toList, Value.int 2, Value.str "hi".toList,
          Value.int 0], []⟩ ∧
    fgets 256 (fmtRow (fmtDate noon) 2 "a\nb".toList 0)
      = some ("2024-01-05 09:03:07, 2, a\n".toList, "b, 0\n".toList) ∧
    (fgets 256 (fmtRow (fmtDate noon) 2 (List.replicate 300 'a') 0)).map
        (fun p => (p.1.length, p.2.length)) = some (255, 73) := by
  decide

/-! ## SendMessage: the two message logs -/

/-- C1 (amended): a SendMessage request from `a` to another user `b`, both
with a directory, with a text that has no comma or newline, holds a character
that is not white space and gives two log lines that fit the 256-byte read
buffer.  When the registry lookup of `b` gives a descriptor other than `-1` on
which the type-7 record can be sent, the messages file of `a` grows by exactly
the line of the row `(date, b, text, 0)` and that of `b` by exactly the line of
the row `(date, a, text, 0)`; each of the two lines is taken in by one `fgets`
and read back as one row with that peer and read status 0.  When the lookup
gives `-1` or the send fails, no file is changed. -/
theorem processMessage_stores_when_delivered (w : World) (tm : Tm) (sock a b : Int)
    (text : List Char) (u : User) (dA dB : UserDir) (hab : a ≠ b) (hA : w.dirs a = some dA)
    (hB : w.dirs b = some dB) (hta : readableText b (tm, text))
    (htb : readableText a (tm, text)) :
    (findSocketByUserId b w.clients ≠ -1 ∧ w.live (findSocketByUserId b w.clients) = true →
      ∃ w1, handleClient w tm sock (some ⟨7, text, u, b, a⟩) = Except.ok (w1, true) ∧
        w1.readMessages a = some (dA.messages.getD [] ++ fmtRow (fmtDate tm) b text 0) ∧
        w1.readMessages b = some (dB.messages.getD [] ++ fmtRow (fmtDate tm) a text 0) ∧
        fgets 256 (fmtRow (fmtDate tm) b text 0) = some (fmtRow (fmtDate tm) b text 0, []) ∧
        sscanfRow (fmtRow (fmtDate tm) b text 0)
          = Except.ok ⟨some (fmtDate tm), some b, some (text.dropWhile isspace), some 0⟩ ∧
        fgets 256 (fmtRow (fmtDate tm) a text 0) = some (fmtRow (fmtDate tm) a text 0, []) ∧
        sscanfRow (fmtRow (fmtDate tm) a text 0)
          = Except.ok ⟨some (fmtDate tm), some a, some (text.dropWhile isspace), some 0⟩) ∧
    (¬ (findSocketByUserId b w.clients ≠ -1 ∧ w.live (findSocketByUserId b w.clients) = true) →
      ∃ w1, handleClient w tm sock (some ⟨7, text, u, b, a⟩) = Except.ok (w1, true) ∧
        w1.dirs = w.dirs) := by
  have hra : (⟨fmtDate tm, b, text, 0⟩ : MessageData).readable :=
    sentRow_readable b (tm, text) hta
  have hrb : (⟨fmtDate tm, a, text, 0⟩ : MessageData).readable :=
    sentRow_readable a (tm, text) htb
  have fa := fgets_row _ hra []
  have fb := fgets_row _ hrb []
  have sa := sscanfRow_row _ hra
  have sb := sscanfRow_row _ hrb
  simp only [List.append_nil] at fa fb sa sb
  constructor
  · rintro ⟨h1, h2⟩
    obtain ⟨w1, e1, -, -, e4, e5, -, -⟩ :=
      sendMessage_step w tm sock a b text u dA dB hab hA hB hta.1 h1 h2
    refine ⟨w1, e1, ?_, ?_, fa, sa, fb, sb⟩
    · simp [World.readMessages, e4]
    · simp [World.readMessages, e5]
  · intro h
    by_cases h1 : findSocketByUserId b w.clients = -1
    · exact ⟨w, by simp [handleClient, processMessage, h1, Except.map], rfl⟩
    · have h2 : w.live (findSocketByUserId b w.clients) = false := by
        simpa [h1] using h
      exact ⟨(send w (findSocketByUserId b w.clients)
          ⟨7, Body.text (text.take 1023), some b, some a⟩).1,
        by simp [handleClient, processMessage, h1, h2, Except.map], rfl⟩

/-- Witness of C1 (amended): user 1 sends "hi" to user 2, who is logged in. -/
theorem processMessage_stores_when_delivered_witness :
    ∃ w1, handleClient twoUsers noon 5 (sendMessage 1 2 "hi") = Except.ok (w1, true) ∧
      w1.readMessages 1 = some "2024-01-05 09:03:07, 2, hi, 0\n".toList ∧
      w1.readMessages 2 = some "2024-01-05 09:03:07, 1, hi, 0\n".toList ∧
      fgets 256 "2024-01-05 09:03:07, 2, hi, 0\n".toList
        = some ("2024-01-05 09:03:07, 2, hi, 0\n".toList, []) ∧
      sscanfRow "2024-01-05 09:03:07, 2, hi, 0\n".toList
        = Except.ok ⟨some "2024-01-05 09:03:07".toList, some 2, some "hi".toList, some 0⟩ ∧
      fgets 256 "2024-01-05 09:03:07, 1, hi, 0\n".toList
        = some ("2024-01-05 09:03:07, 1, hi, 0\n".toList, []) ∧
      sscanfRow "2024-01-05 09:03:07, 1, hi, 0\n".toList
        = Except.ok ⟨some "2024-01-05 09:03:07".toList, some 1, some "hi".toList, some 0⟩ :=
  (processMessage_stores_when_delivered twoUsers noon 5 1 2 "hi".toList noUser
    ⟨some [], some []⟩ ⟨some [], some []⟩ (by decide) rfl rfl (by decide) (by decide)).1
    ⟨by decide, by decide⟩

set_option maxRecDepth 100000 in
/-- C1 fails as stated.  User 12 is registered but has no slot in the
registry, and user 2 is registered but never logged in, so that its slot still
holds the initial 0, a descriptor on which `send` fails: in both sessions the
message of user 1 is stored in neither messages file.  A message of user 1 to
itself puts two rows into the one file.  And the text is printed unchecked: a
text with a newline puts two rows, of the peers 1 and 7, into the file of the
logged-in user 2; of the row stored for "a,b" `sscanf` reads three members and
no read status, of the row stored for " " two; and the line stored for a text
of 240 letters is longer than one `fgets` takes in. -/
theorem sendMessage_without_connection_not_stored :
    messagesAfter (serve start [(5, noon, registrationRequest 1 "ann,555,Ann,Lee"),
        (5, noon, loginRequest 1), (6, noon, registrationRequest 12 "bob,556,Bob,Ray"),
        (5, noon, sendMessage 1 12 "hi")]) 1 = some [] ∧
    messagesAfter (serve start [(5, noon, registrationRequest 1 "ann,555,Ann,Lee"),
        (5, noon, loginRequest 1), (6, noon, registrationRequest 12 "bob,556,Bob,Ray"),
        (5, noon, sendMessage 1 12 "hi")]) 12 = some [] ∧
    messagesAfter (serve start [(5, noon, registrationRequest 1 "ann,555,Ann,Lee"),
        (5, noon, loginRequest 1), (6, noon, registrationRequest 2 "bob,556,Bob,Ray"),
        (5, noon, sendMessage 1 2 "hi")]) 1 = some [] ∧
    messagesAfter (serve start [(5, noon, registrationRequest 1 "ann,555,Ann,Lee"),
        (5, noon, loginRequest 1), (6, noon, registrationRequest 2 "bob,556,Bob,Ray"),
        (5, noon, sendMessage 1 2 "hi")]) 2 = some [] ∧
    messagesAfter (serve start [(5, noon, registrationRequest 1 "ann,555,Ann,Lee"),
        (5, noon, loginRequest 1), (5, noon, sendMessage 1 1 "hi")]) 1
      = some "2024-01-05 09:03:07, 1, hi, 0\n2024-01-05 09:03:07, 1, hi, 0\n".toList ∧
    messagesAfter (serve twoUsers
        [(5, noon, sendMessage 1 2 "hi, 0\n2024-01-05 09:03:07, 7, yo")]) 2
      = some "2024-01-05 09:03:07, 1, hi, 0\n2024-01-05 09:03:07, 7, yo, 0\n".toList ∧
    messagesAfter (serve twoUsers [(5, noon, sendMessage 1 2 "a,b")]) 2
      = some "2024-01-05 09:03:07, 1, a,b, 0\n".toList ∧
    (scanf rowFormat "2024-01-05 09:03:07, 1, a,b, 0\n".toList []).ret = some 3 ∧
    messagesAfter (serve twoUsers [(5, noon, sendMessage 1 2 " ")]) 2
      = some "2024-01-05 09:03:07, 1,  , 0\n".toList ∧
    (scanf rowFormat "2024-01-05 09:03:07, 1,  , 0\n".toList []).ret = some 2 ∧
    ((messagesAfter (serve twoUsers
        [(5, noon, some ⟨7, List.replicate 240 'a', noUser, 2, 1⟩)]) 2).bind
        (fun file => (fgets 256 file).map (fun p => (file.length, p.1.length))))
      = some (268, 255) := by
  decide

/-! ## Delivery of a SendMessage -/

theorem appendMessages_getD_sent (w : World) (i : Int) (line : List Char) :
    ((w.appendMessages i line).getD w).sent = w.sent := by
  unfold World.appendMessages
  cases w.dirs i <;> rfl

/-- The records of a SendMessage whose recipient has a registered descriptor on
which `send` succeeds: one type-7 record on that descriptor, then the
confirmation on the sender's. -/
theorem sendMessage_sent_when_live (w : World) (tm : Tm) (sock a b : Int) (text : List Char)
    (u : User) (htm : tm.valid) (h1 : findSocketByUserId b w.clients ≠ -1)
    (h2 : w.live (findSocketByUserId b w.clients) = true) :
    ∃ w1, handleClient w tm sock (some ⟨7, text, u, b, a⟩) = Except.ok (w1, true) ∧
      w1.sent = w.sent ++ [(findSocketByUserId b w.clients,
          ⟨7, Body.text (text.take 1023), some b, some a⟩),
        (sock, ⟨3, Body.text "Message sent".toList, none, none⟩)] := by
  refine ⟨_, sendMessage_delivered_eq w tm sock a b text u htm h1 h2, ?_⟩
  rw [confirm_sent, appendMessages_getD_sent, appendMessages_getD_sent, send_sent]
  simp

/-- C13, the code at the failing input: a SendMessage with from 15 (or -3) to
the logged-in user 2 stores a row of peer 15 (or -3) with read status 0 in the
messages file of user 2; `sscanf` reads that peer back, and CheckUnread for
user 2 indexes the `MAX_USERS` elements of `unreadCounts` with it. -/
theorem checkUnread_index_out_of_range :
    messagesAfter (serve twoUsers [(5, noon, sendMessage 15 2 "hi")]) 2
      = some "2024-01-05 09:03:07, 15, hi, 0\n".toList ∧
    scanf rowFormat "2024-01-05 09:03:07, 15, hi, 0\n".toList []
      = ⟨some 4, [Value.str "2024-01-05 09:03:07".toList, Value.int 15, Value.str "hi".toList,
          Value.int 0], []⟩ ∧
    faultOf (serve twoUsers [(5, noon, sendMessage 15 2 "hi"), (6, noon, checkUnread 2)])
      = some Fault.undefinedBehaviour ∧
    messagesAfter (serve twoUsers [(5, noon, sendMessage (-3) 2 "hi")]) 2
      = some "2024-01-05 09:03:07, -3, hi, 0\n".toList ∧
    faultOf (serve twoUsers [(5, noon, sendMessage (-3) 2 "hi"), (6, noon, checkUnread 2)])
      = some Fault.undefinedBehaviour := by
  decide

/-! ## The scan loop of `isUserRegistered` -/

/-- C15, the code at the failing input: identity 7 registers with the body
"a,b,c,d\nx", whose fourth token is "d\nx".  The file then holds the line "x"
after the profile; there `fscanf` fails to match `%d`, returns 0 and consumes
nothing, so the loop of `isUserRegistered` for identity 8 repeats for ever. -/
theorem isUserRegistered_never_ends :
    userListAfter (serve start [(5, noon, registrationRequest 7 "a,b,c,d\nx")])
      = some "7,a,b,c,d\nx\n".toList ∧
    scanf userListFormat "7,a,b,c,d\nx\n".toList []
      = ⟨some 5, [Value.int 7, Value.str "a".toList, Value.str "b".toList,
          Value.str "c".toList, Value.str "d".toList], "x\n".toList⟩ ∧
    scanf userListFormat "x\n".toList [] = ⟨some 0, [], "x\n".toList⟩ ∧
    faultOf (serve start [(5, noon, registrationRequest 7 "a,b,c,d\nx"),
        (6, noon, loginRequest 8)]) = some Fault.diverges := by
  decide

end ClientServer
